import Mathlib

/-!
Verification development for the eye-stabilizer core of the repository
(`src/eye_stabilizer_node.py` and `src/eye_stabilizer_v2_node.py`).

The Python code is shallowly embedded: scalar measurements, EAR values and
filter parameters are modelled as exact rationals (`ℚ`); the Euclidean norm
used by the EAR calculator is modelled over the reals (`ℝ`) because it needs
`Real.sqrt`.  Stateful Python classes become Lean structures with explicit
state-passing update functions.  Python `deque(maxlen=n)` becomes a list that
drops its oldest element on overflow.  Python truthiness of
`self.baseline_ear` (both `None` and `0.0` are falsy) is modelled explicitly.
-/

namespace EyeStab

/-- Embeds `KalmanFilter1D` from `eye_stabilizer_node.py` lines 24-43 and (identical
code) `eye_stabilizer_v2_node.py` lines 100-119. -/
structure KalmanFilter1D where
  process_variance : ℚ
  measurement_variance : ℚ
  estimate : ℚ
  error_estimate : ℚ
deriving DecidableEq

/-- Embeds `KalmanFilter1D.__init__`: estimate starts at 0, error estimate at 1. -/
def KalmanFilter1D.init (process_variance measurement_variance : ℚ) : KalmanFilter1D :=
  { process_variance := process_variance, measurement_variance := measurement_variance,
    estimate := 0, error_estimate := 1 }

/-- Embeds `KalmanFilter1D.update` (prediction + gain + correction), returning the
new filter state; the Python method returns `estimate`, which is the
`estimate` field of the returned state. -/
def KalmanFilter1D.update (kf : KalmanFilter1D) (measurement : ℚ) : KalmanFilter1D :=
  let prediction_error := kf.error_estimate + kf.process_variance
  let kalman_gain := prediction_error / (prediction_error + kf.measurement_variance)
  { kf with
    estimate := kf.estimate + kalman_gain * (measurement - kf.estimate),
    error_estimate := (1 - kalman_gain) * prediction_error }

/-- Python `collections.deque(maxlen)` append: push on the right, evict from
the left when the length would exceed `maxlen`. -/
def dequeAppend (maxlen : Nat) (xs : List ℚ) (x : ℚ) : List ℚ :=
  let ys := xs ++ [x]
  if maxlen < ys.length then ys.drop (ys.length - maxlen) else ys

/-- Embeds `np.percentile(samples, 75)` with numpy's default linear interpolation,
over exact rationals: sort, take position `0.75 * (n - 1)`, interpolate
between the two neighbouring order statistics. -/
def percentile75 (xs : List ℚ) : ℚ :=
  let s := List.insertionSort (fun a b => a ≤ b) xs
  if s.length = 0 then 0
  else
    let lo : Nat := 3 * (s.length - 1) / 4
    let frac : ℚ := 3 * ((s.length : ℚ) - 1) / 4 - (lo : ℚ)
    let a := s.getD lo 0
    let b := s.getD (lo + 1) a
    a + frac * (b - a)

/-- Embeds `BlinkDetector` from `eye_stabilizer_node.py` lines 46-52 (V1: plain
rolling-average detector, no calibration and no suppression). -/
structure BlinkDetector where
  history_size : Nat
  threshold : ℚ
  ear_history : List ℚ
deriving DecidableEq

/-- Embeds `BlinkDetector.__init__(history_size=5, threshold=0.2)` with an empty
EAR history. -/
def BlinkDetector.init (history_size : Nat) (threshold : ℚ) : BlinkDetector :=
  { history_size := history_size, threshold := threshold, ear_history := [] }

/-- Embeds `BlinkDetector.detect_blink` (`eye_stabilizer_node.py` lines 79-99):
append the average EAR to the history; report no blink until the history is
full; otherwise blink iff the average EAR is below the historical mean scaled
by `1 - threshold`. -/
def BlinkDetector.detect_blink (d : BlinkDetector) (left_ear right_ear : ℚ) :
    Bool × BlinkDetector :=
  let avg_ear := (left_ear + right_ear) / 2
  let d1 : BlinkDetector :=
    { d with ear_history := dequeAppend d.history_size d.ear_history avg_ear }
  if d1.ear_history.length < d1.history_size then (false, d1)
  else
    let avg_historical := d1.ear_history.sum / (d1.ear_history.length : ℚ)
    (decide (avg_ear < avg_historical * (1 - d1.threshold)), d1)

/-- Embeds the `AdaptiveBlinkDetector` state (`eye_stabilizer_v2_node.py` lines
129-143).  `preset_auto` models `self.ethnicity_preset == "auto"`, the only
use the class makes of the stored preset name. -/
structure AdaptiveBlinkDetector where
  history_size : Nat
  threshold : ℚ
  ear_history : List ℚ
  baseline_ear : Option ℚ
  calibration_samples : List ℚ
  calibrated : Bool
  preset_auto : Bool
  blink_suppression : Bool
  min_blink_duration : Nat
  blink_counter : Nat
deriving DecidableEq

/-- Embeds `AdaptiveBlinkDetector.__init__` as invoked by
`EyeStabilizerV2Node.stabilize_eyes` (history_size keeps its default 5). -/
def AdaptiveBlinkDetector.init (threshold : ℚ) (preset_auto blink_suppression : Bool)
    (min_blink_duration : Nat) : AdaptiveBlinkDetector :=
  { history_size := 5, threshold := threshold, ear_history := [], baseline_ear := none,
    calibration_samples := [], calibrated := false, preset_auto := preset_auto,
    blink_suppression := blink_suppression, min_blink_duration := min_blink_duration,
    blink_counter := 0 }

/-- Embeds `AdaptiveBlinkDetector.calibrate` (`eye_stabilizer_v2_node.py` lines
170-186): while uncalibrated, append the sample; once 30 samples are
collected set the baseline to their 75th percentile, fix the relative
threshold at 0.35 and mark the detector calibrated. -/
def AdaptiveBlinkDetector.calibrate (d : AdaptiveBlinkDetector) (ear_value : ℚ) :
    AdaptiveBlinkDetector :=
  if d.calibrated then d
  else
    let samples := d.calibration_samples ++ [ear_value]
    if 30 ≤ samples.length then
      { d with calibration_samples := samples,
               baseline_ear := some (percentile75 samples),
               threshold := 7/20,
               calibrated := true }
    else
      { d with calibration_samples := samples }

/-- Python truthiness of `self.baseline_ear`: `None` and `0.0` are falsy. -/
def optionTruthy : Option ℚ → Bool
  | none => false
  | some b => decide (b ≠ 0)

/-- The raw blink condition of `detect_blink` (`eye_stabilizer_v2_node.py`
lines 212-218), evaluated on a given detector state and average EAR:
compare against `baseline_ear * (1 - threshold)` when calibrated (and the
baseline is truthy), else against the historical mean scaled the same way. -/
def AdaptiveBlinkDetector.rawCond (d : AdaptiveBlinkDetector) (avg_ear : ℚ) : Bool :=
  if d.calibrated && optionTruthy d.baseline_ear then
    decide (avg_ear < d.baseline_ear.getD 0 * (1 - d.threshold))
  else
    decide (avg_ear < d.ear_history.sum / (d.ear_history.length : ℚ) * (1 - d.threshold))

/-- The state mutations `detect_blink` performs before classifying
(`eye_stabilizer_v2_node.py` lines 201-207): auto-calibration while in auto
mode and uncalibrated, then appending the average EAR to the history. -/
def AdaptiveBlinkDetector.preState (d : AdaptiveBlinkDetector) (left_ear right_ear : ℚ) :
    AdaptiveBlinkDetector :=
  let avg_ear := (left_ear + right_ear) / 2
  let d1 := if !d.calibrated && d.preset_auto then d.calibrate avg_ear else d
  { d1 with ear_history := dequeAppend d1.history_size d1.ear_history avg_ear }

/-- The classification part of `detect_blink` (`eye_stabilizer_v2_node.py`
lines 209-236), run on the post-calibration post-append state: early exit
while the history is not full, then the raw condition, then the suppression
run-counter logic. -/
def AdaptiveBlinkDetector.classifyStep (d1 : AdaptiveBlinkDetector) (avg_ear : ℚ) :
    Bool × AdaptiveBlinkDetector :=
  if d1.ear_history.length < d1.history_size then (false, d1)
  else
    let is_blinking_raw := d1.rawCond avg_ear
    if d1.blink_suppression then
      if is_blinking_raw then
        let d2 : AdaptiveBlinkDetector := { d1 with blink_counter := d1.blink_counter + 1 }
        if d2.min_blink_duration ≤ d2.blink_counter then (true, d2) else (false, d2)
      else
        (false, { d1 with blink_counter := 0 })
    else
      (is_blinking_raw, d1)

/-- Embeds `AdaptiveBlinkDetector.detect_blink` (`eye_stabilizer_v2_node.py` lines
188-236), assembled from its two phases. -/
def AdaptiveBlinkDetector.detect_blink (d : AdaptiveBlinkDetector)
    (left_ear right_ear : ℚ) : Bool × AdaptiveBlinkDetector :=
  (d.preState left_ear right_ear).classifyStep ((left_ear + right_ear) / 2)

/-- The raw blink condition observed at a single `detect_blink` call: the
condition computed at lines 212-218 on that call's post-append state. -/
def AdaptiveBlinkDetector.rawAt (d : AdaptiveBlinkDetector) (left_ear right_ear : ℚ) :
    Bool :=
  (d.preState left_ear right_ear).rawCond ((left_ear + right_ear) / 2)

/-- Numeric fields of an ethnicity preset that the V2 node's parameter
resolution consults (`ETHNICITY_PRESETS` in `eye_stabilizer_v2_node.py`
lines 27-97; the string fields play no role in the claims). -/
structure Preset where
  blink_threshold : ℚ
  smoothing_strength : ℚ
  enhancement_strength : ℚ
  ear_baseline : Option ℚ
deriving DecidableEq

/-- The closed set of population selectors (the keys of
`ETHNICITY_PRESETS`). -/
inductive EthnicityPreset
  | auto
  | east_asian
  | south_asian
  | african
  | caucasian
  | middle_eastern
  | latino
deriving DecidableEq

/-- The numeric contents of `ETHNICITY_PRESETS`. -/
def ETHNICITY_PRESETS : EthnicityPreset → Preset
  | .auto => { blink_threshold := 1/5, smoothing_strength := 7/10,
               enhancement_strength := 13/10, ear_baseline := none }
  | .east_asian => { blink_threshold := 12/100, smoothing_strength := 4/10,
                     enhancement_strength := 11/10, ear_baseline := some (18/100) }
  | .south_asian => { blink_threshold := 18/100, smoothing_strength := 6/10,
                      enhancement_strength := 125/100, ear_baseline := some (22/100) }
  | .african => { blink_threshold := 22/100, smoothing_strength := 65/100,
                  enhancement_strength := 14/10, ear_baseline := some (25/100) }
  | .caucasian => { blink_threshold := 20/100, smoothing_strength := 7/10,
                    enhancement_strength := 13/10, ear_baseline := some (26/100) }
  | .middle_eastern => { blink_threshold := 19/100, smoothing_strength := 6/10,
                         enhancement_strength := 135/100, ear_baseline := some (24/100) }
  | .latino => { blink_threshold := 19/100, smoothing_strength := 65/100,
                 enhancement_strength := 13/10, ear_baseline := some (24/100) }

/-- The override resolution of `EyeStabilizerV2Node.stabilize_eyes`
(`eye_stabilizer_v2_node.py` lines 368-370): each of the three values
`x_override if x_override >= 0 else preset[x]`, returned as
(smoothing_strength, enhancement_strength, blink_threshold). -/
def resolveParams (preset : Preset)
    (smoothing_override enhancement_override blink_threshold_override : ℚ) :
    ℚ × ℚ × ℚ :=
  ( if 0 ≤ smoothing_override then smoothing_override else preset.smoothing_strength,
    if 0 ≤ enhancement_override then enhancement_override else preset.enhancement_strength,
    if 0 ≤ blink_threshold_override then blink_threshold_override
      else preset.blink_threshold )

/-! ### Traces of repeated `detect_blink` calls -/

/-- Detector state after consuming a list of (left EAR, right EAR) pairs. -/
def runAdaptive (d : AdaptiveBlinkDetector) (inputs : List (ℚ × ℚ)) :
    AdaptiveBlinkDetector :=
  inputs.foldl (fun s p => (s.detect_blink p.1 p.2).2) d

/-- Detector state just before the `i`-th call (0-based) of a sequence. -/
def stateBefore (d : AdaptiveBlinkDetector) (inputs : List (ℚ × ℚ)) (i : Nat) :
    AdaptiveBlinkDetector :=
  runAdaptive d (inputs.take i)

/-- The `i`-th input pair (defaulting to (0, 0) out of range). -/
def inputAt (inputs : List (ℚ × ℚ)) (i : Nat) : ℚ × ℚ :=
  inputs.getD i (0, 0)

/-- The boolean returned by the `i`-th `detect_blink` call of a sequence. -/
def outSeq (d : AdaptiveBlinkDetector) (inputs : List (ℚ × ℚ)) (i : Nat) : Bool :=
  ((stateBefore d inputs i).detect_blink (inputAt inputs i).1 (inputAt inputs i).2).1

/-- The raw blink condition observed at the `i`-th call of a sequence. -/
def rawSeq (d : AdaptiveBlinkDetector) (inputs : List (ℚ × ℚ)) (i : Nat) : Bool :=
  (stateBefore d inputs i).rawAt (inputAt inputs i).1 (inputAt inputs i).2

/-- The suppression run counter just after the `i`-th call of a sequence. -/
def counterAfter (d : AdaptiveBlinkDetector) (inputs : List (ℚ × ℚ)) (i : Nat) : Nat :=
  (stateBefore d inputs (i + 1)).blink_counter

/-- Length of the run of consecutive raw-blink frames ending at frame `i`:
`0` when frame `i` is not raw-blinking, else one more than the run ending at
frame `i - 1`. -/
def trailingRun (d : AdaptiveBlinkDetector) (inputs : List (ℚ × ℚ)) : Nat → Nat
  | 0 => if rawSeq d inputs 0 then 1 else 0
  | i + 1 => if rawSeq d inputs (i + 1) then trailingRun d inputs i + 1 else 0

/-! ### Elementary lemmas about the embedded operations -/

theorem dequeAppend_length (maxlen : Nat) (xs : List ℚ) (x : ℚ) :
    (dequeAppend maxlen xs x).length = min maxlen (xs.length + 1) := by
  unfold dequeAppend
  dsimp only
  split <;> simp_all <;> omega

theorem KalmanFilter1D.update_process_variance (kf : KalmanFilter1D) (m : ℚ) :
    (kf.update m).process_variance = kf.process_variance := rfl

theorem KalmanFilter1D.update_measurement_variance (kf : KalmanFilter1D) (m : ℚ) :
    (kf.update m).measurement_variance = kf.measurement_variance := rfl

theorem AdaptiveBlinkDetector.calibrate_history (d : AdaptiveBlinkDetector) (e : ℚ) :
    (d.calibrate e).ear_history = d.ear_history := by
  unfold calibrate; dsimp only; split <;> [rfl; (split <;> rfl)]

theorem AdaptiveBlinkDetector.calibrate_history_size (d : AdaptiveBlinkDetector) (e : ℚ) :
    (d.calibrate e).history_size = d.history_size := by
  unfold calibrate; dsimp only; split <;> [rfl; (split <;> rfl)]

theorem AdaptiveBlinkDetector.calibrate_suppression (d : AdaptiveBlinkDetector) (e : ℚ) :
    (d.calibrate e).blink_suppression = d.blink_suppression := by
  unfold calibrate; dsimp only; split <;> [rfl; (split <;> rfl)]

theorem AdaptiveBlinkDetector.calibrate_min_duration (d : AdaptiveBlinkDetector) (e : ℚ) :
    (d.calibrate e).min_blink_duration = d.min_blink_duration := by
  unfold calibrate; dsimp only; split <;> [rfl; (split <;> rfl)]

theorem AdaptiveBlinkDetector.calibrate_counter (d : AdaptiveBlinkDetector) (e : ℚ) :
    (d.calibrate e).blink_counter = d.blink_counter := by
  unfold calibrate; dsimp only; split <;> [rfl; (split <;> rfl)]

theorem AdaptiveBlinkDetector.calibrate_preset_auto (d : AdaptiveBlinkDetector) (e : ℚ) :
    (d.calibrate e).preset_auto = d.preset_auto := by
  unfold calibrate; dsimp only; split <;> [rfl; (split <;> rfl)]

theorem AdaptiveBlinkDetector.preState_history_size (d : AdaptiveBlinkDetector)
    (l r : ℚ) : (d.preState l r).history_size = d.history_size := by
  unfold preState
  split <;> simp [calibrate_history_size]

theorem AdaptiveBlinkDetector.preState_suppression (d : AdaptiveBlinkDetector)
    (l r : ℚ) : (d.preState l r).blink_suppression = d.blink_suppression := by
  unfold preState
  split <;> simp [calibrate_suppression]

theorem AdaptiveBlinkDetector.preState_min_duration (d : AdaptiveBlinkDetector)
    (l r : ℚ) : (d.preState l r).min_blink_duration = d.min_blink_duration := by
  unfold preState
  split <;> simp [calibrate_min_duration]

theorem AdaptiveBlinkDetector.preState_counter (d : AdaptiveBlinkDetector)
    (l r : ℚ) : (d.preState l r).blink_counter = d.blink_counter := by
  unfold preState
  split <;> simp [calibrate_counter]

theorem AdaptiveBlinkDetector.preState_preset_auto (d : AdaptiveBlinkDetector)
    (l r : ℚ) : (d.preState l r).preset_auto = d.preset_auto := by
  unfold preState
  split <;> simp [calibrate_preset_auto]

theorem AdaptiveBlinkDetector.preState_history_length (d : AdaptiveBlinkDetector)
    (l r : ℚ) :
    (d.preState l r).ear_history.length = min d.history_size (d.ear_history.length + 1) := by
  unfold preState
  split <;> simp [dequeAppend_length, calibrate_history, calibrate_history_size]

theorem AdaptiveBlinkDetector.classify_snd_history (d1 : AdaptiveBlinkDetector)
    (a : ℚ) : (d1.classifyStep a).2.ear_history = d1.ear_history := by
  unfold classifyStep
  dsimp only
  split_ifs <;> rfl

theorem AdaptiveBlinkDetector.classify_snd_history_size (d1 : AdaptiveBlinkDetector)
    (a : ℚ) : (d1.classifyStep a).2.history_size = d1.history_size := by
  unfold classifyStep
  dsimp only
  split_ifs <;> rfl

theorem AdaptiveBlinkDetector.classify_snd_suppression (d1 : AdaptiveBlinkDetector)
    (a : ℚ) : (d1.classifyStep a).2.blink_suppression = d1.blink_suppression := by
  unfold classifyStep
  dsimp only
  split_ifs <;> rfl

theorem AdaptiveBlinkDetector.classify_snd_min_duration (d1 : AdaptiveBlinkDetector)
    (a : ℚ) : (d1.classifyStep a).2.min_blink_duration = d1.min_blink_duration := by
  unfold classifyStep
  dsimp only
  split_ifs <;> rfl

theorem AdaptiveBlinkDetector.classify_snd_calibrated (d1 : AdaptiveBlinkDetector)
    (a : ℚ) : (d1.classifyStep a).2.calibrated = d1.calibrated := by
  unfold classifyStep
  dsimp only
  split_ifs <;> rfl

theorem AdaptiveBlinkDetector.classify_snd_samples (d1 : AdaptiveBlinkDetector)
    (a : ℚ) : (d1.classifyStep a).2.calibration_samples = d1.calibration_samples := by
  unfold classifyStep
  dsimp only
  split_ifs <;> rfl

theorem AdaptiveBlinkDetector.classify_snd_baseline (d1 : AdaptiveBlinkDetector)
    (a : ℚ) : (d1.classifyStep a).2.baseline_ear = d1.baseline_ear := by
  unfold classifyStep
  dsimp only
  split_ifs <;> rfl

theorem AdaptiveBlinkDetector.classify_snd_threshold (d1 : AdaptiveBlinkDetector)
    (a : ℚ) : (d1.classifyStep a).2.threshold = d1.threshold := by
  unfold classifyStep
  dsimp only
  split_ifs <;> rfl

theorem AdaptiveBlinkDetector.classify_snd_preset_auto (d1 : AdaptiveBlinkDetector)
    (a : ℚ) : (d1.classifyStep a).2.preset_auto = d1.preset_auto := by
  unfold classifyStep
  dsimp only
  split_ifs <;> rfl

/-- Warm-up behaviour of `classifyStep`: while the (post-append) history is
shorter than the capacity, the call reports no blink and changes nothing
further. -/
theorem AdaptiveBlinkDetector.classify_not_full (d1 : AdaptiveBlinkDetector) (a : ℚ)
    (h : d1.ear_history.length < d1.history_size) :
    d1.classifyStep a = (false, d1) := by
  unfold classifyStep
  rw [if_pos h]

/-- Full-history behaviour of `classifyStep` with suppression enabled: the
result is `raw ∧ min_blink_duration ≤ counter + 1`, and the run counter
becomes `counter + 1` on a raw frame and `0` otherwise. -/
theorem AdaptiveBlinkDetector.classify_full_supp (d1 : AdaptiveBlinkDetector) (a : ℚ)
    (hfull : ¬ d1.ear_history.length < d1.history_size)
    (hsup : d1.blink_suppression = true) :
    d1.classifyStep a =
      ((d1.rawCond a && decide (d1.min_blink_duration ≤ d1.blink_counter + 1)),
       { d1 with blink_counter := if d1.rawCond a then d1.blink_counter + 1 else 0 }) := by
  unfold classifyStep
  rw [if_neg hfull]
  dsimp only
  rw [hsup]
  cases hraw : d1.rawCond a with
  | false => simp
  | true =>
    simp only [if_pos rfl, Bool.true_and, if_true]
    split <;> rename_i hmin
    · simp [decide_eq_true hmin]
    · simp [decide_eq_false hmin]

/-- Full-history behaviour of `classifyStep` with suppression disabled: the
raw condition is the answer and the state is unchanged. -/
theorem AdaptiveBlinkDetector.classify_full_nosupp (d1 : AdaptiveBlinkDetector) (a : ℚ)
    (hfull : ¬ d1.ear_history.length < d1.history_size)
    (hsup : d1.blink_suppression = false) :
    d1.classifyStep a = (d1.rawCond a, d1) := by
  unfold classifyStep
  rw [if_neg hfull]
  dsimp only
  rw [hsup]
  simp

/-- Unrolling of `stateBefore`: the state before call `i + 1` is obtained by
one `detect_blink` step from the state before call `i`. -/
theorem stateBefore_succ :
    ∀ (inputs : List (ℚ × ℚ)) (d : AdaptiveBlinkDetector) (i : Nat),
      i < inputs.length →
      stateBefore d inputs (i + 1)
        = ((stateBefore d inputs i).detect_blink (inputAt inputs i).1
            (inputAt inputs i).2).2
  | [], _, i, h => absurd h (by simp)
  | p :: rest, d, 0, _ => by
      simp [stateBefore, runAdaptive, inputAt]
  | p :: rest, d, i + 1, h => by
      have ih := stateBefore_succ rest ((d.detect_blink p.1 p.2).2) i
        (by simpa using Nat.lt_of_succ_lt_succ h)
      simpa [stateBefore, runAdaptive, inputAt] using ih

theorem AdaptiveBlinkDetector.detect_snd_suppression (d : AdaptiveBlinkDetector)
    (l r : ℚ) : ((d.detect_blink l r).2).blink_suppression = d.blink_suppression := by
  unfold detect_blink
  rw [classify_snd_suppression, preState_suppression]

theorem AdaptiveBlinkDetector.detect_snd_min_duration (d : AdaptiveBlinkDetector)
    (l r : ℚ) : ((d.detect_blink l r).2).min_blink_duration = d.min_blink_duration := by
  unfold detect_blink
  rw [classify_snd_min_duration, preState_min_duration]

theorem AdaptiveBlinkDetector.detect_snd_history_size (d : AdaptiveBlinkDetector)
    (l r : ℚ) : ((d.detect_blink l r).2).history_size = d.history_size := by
  unfold detect_blink
  rw [classify_snd_history_size, preState_history_size]

theorem AdaptiveBlinkDetector.detect_snd_history_length (d : AdaptiveBlinkDetector)
    (l r : ℚ) :
    ((d.detect_blink l r).2).ear_history.length
      = min d.history_size (d.ear_history.length + 1) := by
  unfold detect_blink
  rw [classify_snd_history, preState_history_length]

/-- Past the end of the input list, `stateBefore` saturates. -/
theorem stateBefore_stable (d : AdaptiveBlinkDetector) (inputs : List (ℚ × ℚ)) (i : Nat)
    (h : inputs.length ≤ i) : stateBefore d inputs i = runAdaptive d inputs := by
  unfold stateBefore
  rw [List.take_of_length_le h]

/-- Configuration fields of the detector never change along a trace. -/
theorem stateBefore_props (d : AdaptiveBlinkDetector) (inputs : List (ℚ × ℚ)) (i : Nat) :
    (stateBefore d inputs i).blink_suppression = d.blink_suppression
    ∧ (stateBefore d inputs i).min_blink_duration = d.min_blink_duration
    ∧ (stateBefore d inputs i).history_size = d.history_size := by
  induction i with
  | zero => exact ⟨rfl, rfl, rfl⟩
  | succ j ih =>
    by_cases hj : j < inputs.length
    · rw [stateBefore_succ inputs d j hj]
      refine ⟨?_, ?_, ?_⟩
      · rw [AdaptiveBlinkDetector.detect_snd_suppression]; exact ih.1
      · rw [AdaptiveBlinkDetector.detect_snd_min_duration]; exact ih.2.1
      · rw [AdaptiveBlinkDetector.detect_snd_history_size]; exact ih.2.2
    · have h1 : inputs.length ≤ j := le_of_not_lt hj
      rw [stateBefore_stable d inputs (j + 1) (Nat.le_succ_of_le h1)]
      rw [stateBefore_stable d inputs j h1] at ih
      exact ih

/-- A full EAR history stays full along a trace. -/
theorem stateBefore_full (d : AdaptiveBlinkDetector) (inputs : List (ℚ × ℚ))
    (hfull : d.ear_history.length = d.history_size) (i : Nat) :
    (stateBefore d inputs i).ear_history.length
      = (stateBefore d inputs i).history_size := by
  induction i with
  | zero => exact hfull
  | succ j ih =>
    by_cases hj : j < inputs.length
    · rw [stateBefore_succ inputs d j hj]
      rw [AdaptiveBlinkDetector.detect_snd_history_length,
        AdaptiveBlinkDetector.detect_snd_history_size, ih]
      omega
    · have h1 : inputs.length ≤ j := le_of_not_lt hj
      rw [stateBefore_stable d inputs (j + 1) (Nat.le_succ_of_le h1)]
      rw [stateBefore_stable d inputs j h1] at ih
      exact ih

/-- The EAR history never exceeds its capacity along a trace. -/
theorem stateBefore_len_le (d : AdaptiveBlinkDetector) (inputs : List (ℚ × ℚ))
    (hle : d.ear_history.length ≤ d.history_size) (i : Nat) :
    (stateBefore d inputs i).ear_history.length
      ≤ (stateBefore d inputs i).history_size := by
  induction i with
  | zero => exact hle
  | succ j ih =>
    by_cases hj : j < inputs.length
    · rw [stateBefore_succ inputs d j hj]
      rw [AdaptiveBlinkDetector.detect_snd_history_length,
        AdaptiveBlinkDetector.detect_snd_history_size]
      omega
    · have h1 : inputs.length ≤ j := le_of_not_lt hj
      rw [stateBefore_stable d inputs (j + 1) (Nat.le_succ_of_le h1)]
      rw [stateBefore_stable d inputs j h1] at ih
      exact ih

/-- One full-history suppressed step of a trace, in terms of the observed raw
condition and the run counter. -/
theorem trace_step_full_supp (d : AdaptiveBlinkDetector) (inputs : List (ℚ × ℚ))
    (i : Nat) (hi : i < inputs.length)
    (hsup : (stateBefore d inputs i).blink_suppression = true)
    (hfull : (stateBefore d inputs i).history_size
      ≤ (stateBefore d inputs i).ear_history.length + 1) :
    outSeq d inputs i
      = (rawSeq d inputs i
          && decide ((stateBefore d inputs i).min_blink_duration
              ≤ (stateBefore d inputs i).blink_counter + 1))
    ∧ counterAfter d inputs i
        = (if rawSeq d inputs i then (stateBefore d inputs i).blink_counter + 1 else 0) := by
  have hnlt : ¬ ((stateBefore d inputs i).preState (inputAt inputs i).1
      (inputAt inputs i).2).ear_history.length
      < ((stateBefore d inputs i).preState (inputAt inputs i).1
          (inputAt inputs i).2).history_size := by
    rw [AdaptiveBlinkDetector.preState_history_length,
      AdaptiveBlinkDetector.preState_history_size]
    omega
  have hsup1 : ((stateBefore d inputs i).preState (inputAt inputs i).1
      (inputAt inputs i).2).blink_suppression = true := by
    rw [AdaptiveBlinkDetector.preState_suppression]; exact hsup
  have hc := AdaptiveBlinkDetector.classify_full_supp
    ((stateBefore d inputs i).preState (inputAt inputs i).1 (inputAt inputs i).2)
    (((inputAt inputs i).1 + (inputAt inputs i).2) / 2) hnlt hsup1
  constructor
  · show ((stateBefore d inputs i).detect_blink (inputAt inputs i).1
      (inputAt inputs i).2).1 = _
    unfold AdaptiveBlinkDetector.detect_blink
    rw [hc]
    rw [AdaptiveBlinkDetector.preState_min_duration, AdaptiveBlinkDetector.preState_counter]
    rfl
  · show (stateBefore d inputs (i + 1)).blink_counter = _
    rw [stateBefore_succ inputs d i hi]
    unfold AdaptiveBlinkDetector.detect_blink
    rw [hc]
    rw [AdaptiveBlinkDetector.preState_counter]
    rfl

/-- One warm-up step of a trace (history still short after the append): no
blink is reported and the run counter is untouched. -/
theorem trace_step_not_full (d : AdaptiveBlinkDetector) (inputs : List (ℚ × ℚ))
    (i : Nat) (hi : i < inputs.length)
    (hlt : (stateBefore d inputs i).ear_history.length + 1
      < (stateBefore d inputs i).history_size) :
    outSeq d inputs i = false
    ∧ counterAfter d inputs i = (stateBefore d inputs i).blink_counter := by
  have hlt1 : ((stateBefore d inputs i).preState (inputAt inputs i).1
      (inputAt inputs i).2).ear_history.length
      < ((stateBefore d inputs i).preState (inputAt inputs i).1
          (inputAt inputs i).2).history_size := by
    rw [AdaptiveBlinkDetector.preState_history_length,
      AdaptiveBlinkDetector.preState_history_size]
    omega
  have hc := AdaptiveBlinkDetector.classify_not_full
    ((stateBefore d inputs i).preState (inputAt inputs i).1 (inputAt inputs i).2)
    (((inputAt inputs i).1 + (inputAt inputs i).2) / 2) hlt1
  constructor
  · show ((stateBefore d inputs i).detect_blink (inputAt inputs i).1
      (inputAt inputs i).2).1 = _
    unfold AdaptiveBlinkDetector.detect_blink
    rw [hc]
  · show (stateBefore d inputs (i + 1)).blink_counter = _
    rw [stateBefore_succ inputs d i hi]
    unfold AdaptiveBlinkDetector.detect_blink
    rw [hc]
    exact AdaptiveBlinkDetector.preState_counter _ _ _

/-- The run counter equals the length of the trailing raw-blink run, for a
suppressed detector started with a full history and a zero counter. -/
theorem counter_eq_trailingRun (d : AdaptiveBlinkDetector) (inputs : List (ℚ × ℚ))
    (hsup : d.blink_suppression = true) (hcnt : d.blink_counter = 0)
    (hfull : d.ear_history.length = d.history_size) :
    ∀ i, i < inputs.length → counterAfter d inputs i = trailingRun d inputs i := by
  intro i
  induction i with
  | zero =>
    intro h0
    have hstep := trace_step_full_supp d inputs 0 h0
      ((stateBefore_props d inputs 0).1.trans hsup)
      (by have := stateBefore_full d inputs hfull 0; omega)
    rw [hstep.2]
    show _ = (if rawSeq d inputs 0 then 1 else 0)
    have : (stateBefore d inputs 0).blink_counter = 0 := hcnt
    rw [this]
  | succ j ih =>
    intro hj1
    have hj : j < inputs.length := Nat.lt_of_succ_lt hj1
    have hstep := trace_step_full_supp d inputs (j + 1) hj1
      ((stateBefore_props d inputs (j + 1)).1.trans hsup)
      (by have := stateBefore_full d inputs hfull (j + 1); omega)
    rw [hstep.2]
    have hcb : (stateBefore d inputs (j + 1)).blink_counter = trailingRun d inputs j := by
      have := ih hj
      rw [← this]
      rfl
    rw [hcb]
    rfl

/-- C2: with blink suppression in aggressive mode (minimum run length 5), a
full EAR history and a fresh run counter, every call reports a blink exactly
when the current run of consecutive raw-blink frames has reached length 5
(so runs of length at most 4 are never reported, and a run of length at
least 5 is reported for the first time exactly at its 5th frame), and the
run counter after each call equals the length of the current raw-blink run
(in particular it is reset to 0 on every non-raw frame). -/
theorem C2_aggressive_suppression (d : AdaptiveBlinkDetector) (inputs : List (ℚ × ℚ))
    (hsup : d.blink_suppression = true) (hmin : d.min_blink_duration = 5)
    (hcnt : d.blink_counter = 0) (hfull : d.ear_history.length = d.history_size) :
    ∀ i, i < inputs.length →
      outSeq d inputs i = decide (5 ≤ trailingRun d inputs i)
      ∧ counterAfter d inputs i = trailingRun d inputs i := by
  intro i hi
  have hcounter := counter_eq_trailingRun d inputs hsup hcnt hfull i hi
  refine ⟨?_, hcounter⟩
  have hstep := trace_step_full_supp d inputs i hi
    ((stateBefore_props d inputs i).1.trans hsup)
    (by have := stateBefore_full d inputs hfull i; omega)
  rw [hstep.1, (stateBefore_props d inputs i).2.1, hmin]
  have hcb : (stateBefore d inputs i).blink_counter
      = (if i = 0 then 0 else trailingRun d inputs (i - 1)) := by
    cases i with
    | zero => simpa using hcnt
    | succ j =>
      simp only [Nat.succ_ne_zero, if_false, Nat.succ_sub_one]
      have := counter_eq_trailingRun d inputs hsup hcnt hfull j (Nat.lt_of_succ_lt hi)
      rw [← this]
      rfl
  cases hraw : rawSeq d inputs i with
  | false =>
    have htr : trailingRun d inputs i = 0 := by
      cases i with
      | zero => simp [trailingRun, hraw]
      | succ j => simp [trailingRun, hraw]
    simp [htr]
  | true =>
    have htr : trailingRun d inputs i = (stateBefore d inputs i).blink_counter + 1 := by
      cases i with
      | zero => simp [trailingRun, hraw, hcb]
      | succ j =>
        simp only [trailingRun, hraw, if_true]
        rw [hcb]
        simp
    rw [htr]
    simp

/-- Soundness invariant of the suppression counter: after call `i` the
counter is at most `i + 1`, every one of the last `counter` calls observed a
true raw condition, and a positive counter means the history is full. -/
theorem counter_sound (d : AdaptiveBlinkDetector) (inputs : List (ℚ × ℚ))
    (hsup : d.blink_suppression = true) (hcnt : d.blink_counter = 0)
    (hle : d.ear_history.length ≤ d.history_size) :
    ∀ i, i < inputs.length →
      counterAfter d inputs i ≤ i + 1
      ∧ (∀ k, k < counterAfter d inputs i → rawSeq d inputs (i - k) = true)
      ∧ (0 < counterAfter d inputs i →
          (stateBefore d inputs (i + 1)).ear_history.length
            = (stateBefore d inputs (i + 1)).history_size) := by
  have hfull_next : ∀ i, i < inputs.length →
      (stateBefore d inputs i).history_size ≤ (stateBefore d inputs i).ear_history.length + 1 →
      (stateBefore d inputs (i + 1)).ear_history.length
        = (stateBefore d inputs (i + 1)).history_size := by
    intro i hi hpost
    rw [stateBefore_succ inputs d i hi, AdaptiveBlinkDetector.detect_snd_history_length,
      AdaptiveBlinkDetector.detect_snd_history_size]
    have := stateBefore_len_le d inputs hle i
    omega
  intro i
  induction i with
  | zero =>
    intro h0
    have hc0 : (stateBefore d inputs 0).blink_counter = 0 := hcnt
    by_cases hpost : (stateBefore d inputs 0).history_size
        ≤ (stateBefore d inputs 0).ear_history.length + 1
    · have hstep := trace_step_full_supp d inputs 0 h0
        ((stateBefore_props d inputs 0).1.trans hsup) hpost
      cases hraw : rawSeq d inputs 0 with
      | false =>
        have hca : counterAfter d inputs 0 = 0 := by rw [hstep.2, hraw]; rfl
        refine ⟨by rw [hca]; omega, ?_, ?_⟩
        · intro k hk
          rw [hca] at hk
          exact absurd hk (by omega)
        · intro hpos
          rw [hca] at hpos
          exact absurd hpos (by omega)
      | true =>
        have hca : counterAfter d inputs 0 = 1 := by rw [hstep.2, hraw, hc0]; rfl
        refine ⟨by rw [hca], ?_, fun _ => hfull_next 0 h0 hpost⟩
        intro k hk
        rw [hca] at hk
        have hk0 : k = 0 := by omega
        subst hk0
        simpa using hraw
    · have hstep := trace_step_not_full d inputs 0 h0 (by omega)
      have hca : counterAfter d inputs 0 = 0 := by rw [hstep.2, hc0]
      refine ⟨by rw [hca]; omega, ?_, ?_⟩
      · intro k hk
        rw [hca] at hk
        exact absurd hk (by omega)
      · intro hpos
        rw [hca] at hpos
        exact absurd hpos (by omega)
  | succ j ih =>
    intro hj1
    have hj : j < inputs.length := Nat.lt_of_succ_lt hj1
    obtain ⟨ihbound, ihraw, ihfull⟩ := ih hj
    have hcb : (stateBefore d inputs (j + 1)).blink_counter = counterAfter d inputs j := rfl
    by_cases hpost : (stateBefore d inputs (j + 1)).history_size
        ≤ (stateBefore d inputs (j + 1)).ear_history.length + 1
    · have hstep := trace_step_full_supp d inputs (j + 1) hj1
        ((stateBefore_props d inputs (j + 1)).1.trans hsup) hpost
      cases hraw : rawSeq d inputs (j + 1) with
      | false =>
        have hca : counterAfter d inputs (j + 1) = 0 := by rw [hstep.2, hraw]; rfl
        refine ⟨by rw [hca]; omega, ?_, ?_⟩
        · intro k hk
          rw [hca] at hk
          exact absurd hk (by omega)
        · intro hpos
          rw [hca] at hpos
          exact absurd hpos (by omega)
      | true =>
        have hca : counterAfter d inputs (j + 1) = counterAfter d inputs j + 1 := by
          rw [hstep.2, hraw, hcb]; rfl
        refine ⟨by rw [hca]; omega, ?_, fun _ => hfull_next (j + 1) hj1 hpost⟩
        intro k hk
        rw [hca] at hk
        cases k with
        | zero => simpa using hraw
        | succ t =>
          have ht : t < counterAfter d inputs j := by omega
          have := ihraw t ht
          simpa [Nat.succ_sub_succ] using this
    · have hstep := trace_step_not_full d inputs (j + 1) hj1 (by omega)
      have hzero : counterAfter d inputs j = 0 := by
        by_contra hne
        have hpos : 0 < counterAfter d inputs j := Nat.pos_of_ne_zero hne
        have := ihfull hpos
        omega
      have hca : counterAfter d inputs (j + 1) = 0 := by rw [hstep.2, hcb, hzero]
      refine ⟨by rw [hca]; omega, ?_, ?_⟩
      · intro k hk
        rw [hca] at hk
        exact absurd hk (by omega)
      · intro hpos
        rw [hca] at hpos
        exact absurd hpos (by omega)

/-- C10: with suppression enabled (any minimum run length) and a fresh run
counter, a call can report a blink only if the raw blink condition held on
that call and on each of the `min_blink_duration - 1` immediately preceding
consecutive calls; suppression never reports a blink on a frame whose raw
condition is false. -/
theorem C10_suppression_soundness (d : AdaptiveBlinkDetector) (inputs : List (ℚ × ℚ))
    (hsup : d.blink_suppression = true) (hcnt : d.blink_counter = 0)
    (hle : d.ear_history.length ≤ d.history_size) :
    ∀ i, i < inputs.length → outSeq d inputs i = true →
      d.min_blink_duration ≤ i + 1
      ∧ (∀ k, k < d.min_blink_duration → rawSeq d inputs (i - k) = true) := by
  intro i hi hout
  by_cases hpost : (stateBefore d inputs i).history_size
      ≤ (stateBefore d inputs i).ear_history.length + 1
  swap
  · have hstep := trace_step_not_full d inputs i hi (by omega)
    rw [hstep.1] at hout
    exact absurd hout (by simp)
  have hstep := trace_step_full_supp d inputs i hi
    ((stateBefore_props d inputs i).1.trans hsup) hpost
  rw [hstep.1] at hout
  have hraw : rawSeq d inputs i = true := by
    cases h : rawSeq d inputs i
    · rw [h] at hout; simp at hout
    · rfl
  have hmin : (stateBefore d inputs i).min_blink_duration
      ≤ (stateBefore d inputs i).blink_counter + 1 := by
    rw [hraw] at hout
    simpa using hout
  rw [(stateBefore_props d inputs i).2.1] at hmin
  cases i with
  | zero =>
    have hc0 : (stateBefore d inputs 0).blink_counter = 0 := hcnt
    rw [hc0] at hmin
    refine ⟨hmin, ?_⟩
    intro k hk
    have : k = 0 := by omega
    subst this
    simpa using hraw
  | succ j =>
    have hj : j < inputs.length := Nat.lt_of_succ_lt hi
    obtain ⟨ihbound, ihraw, _⟩ := counter_sound d inputs hsup hcnt hle j hj
    have hcb : (stateBefore d inputs (j + 1)).blink_counter = counterAfter d inputs j := rfl
    rw [hcb] at hmin
    refine ⟨by omega, ?_⟩
    intro k hk
    cases k with
    | zero => simpa using hraw
    | succ t =>
      have ht : t < counterAfter d inputs j := by omega
      have := ihraw t ht
      simpa [Nat.succ_sub_succ] using this

/-- A concrete calibrated aggressive-mode detector with a full history. -/
def c2wd : AdaptiveBlinkDetector :=
  { history_size := 5, threshold := 7/20, ear_history := [3/10, 3/10, 3/10, 3/10, 3/10],
    baseline_ear := some (3/10), calibration_samples := [], calibrated := true,
    preset_auto := true, blink_suppression := true, min_blink_duration := 5,
    blink_counter := 0 }

/-- Five frames of closed-eye EAR values for the C2 witness. -/
def c2wins : List (ℚ × ℚ) := List.replicate 5 (1/10, 1/10)

theorem C2_aggressive_suppression_witness :
    outSeq c2wd c2wins 4 = decide (5 ≤ trailingRun c2wd c2wins 4)
    ∧ counterAfter c2wd c2wins 4 = trailingRun c2wd c2wins 4 :=
  C2_aggressive_suppression c2wd c2wins rfl rfl rfl (by decide) 4 (by decide)

/-- A concrete calibrated moderate-mode detector with a full history. -/
def c10wd : AdaptiveBlinkDetector :=
  { history_size := 5, threshold := 7/20, ear_history := [3/10, 3/10, 3/10, 3/10, 3/10],
    baseline_ear := some (3/10), calibration_samples := [], calibrated := true,
    preset_auto := true, blink_suppression := true, min_blink_duration := 3,
    blink_counter := 0 }

/-- Four frames of closed-eye EAR values for the C10 witness. -/
def c10wins : List (ℚ × ℚ) := List.replicate 4 (1/10, 1/10)

theorem C10_suppression_soundness_witness :
    c10wd.min_blink_duration ≤ 3 + 1
    ∧ (∀ k, k < c10wd.min_blink_duration → rawSeq c10wd c10wins (3 - k) = true) :=
  C10_suppression_soundness c10wd c10wins rfl rfl (by decide) 3 (by decide)
    (by norm_num [outSeq, stateBefore, runAdaptive, inputAt, c10wd, c10wins,
      AdaptiveBlinkDetector.detect_blink, AdaptiveBlinkDetector.preState,
      AdaptiveBlinkDetector.classifyStep, AdaptiveBlinkDetector.rawCond,
      AdaptiveBlinkDetector.calibrate, dequeAppend, optionTruthy, List.replicate,
      List.getD, List.foldl, List.take])

/-- Effect of one `calibrate` call on an uncalibrated detector: the sample is
always appended; the detector becomes calibrated exactly when the sample
count reaches 30, at which point the baseline and the 0.35 relative
threshold are installed; before that, baseline and threshold are unchanged. -/
theorem AdaptiveBlinkDetector.calibrate_uncal (d : AdaptiveBlinkDetector) (e : ℚ)
    (hcal : d.calibrated = false) :
    (d.calibrate e).calibration_samples = d.calibration_samples ++ [e]
    ∧ ((d.calibrate e).calibrated = true ↔ 30 ≤ d.calibration_samples.length + 1)
    ∧ (30 ≤ d.calibration_samples.length + 1 →
        (d.calibrate e).baseline_ear = some (percentile75 (d.calibration_samples ++ [e]))
        ∧ (d.calibrate e).threshold = 7/20)
    ∧ (d.calibration_samples.length + 1 < 30 →
        (d.calibrate e).baseline_ear = d.baseline_ear
        ∧ (d.calibrate e).threshold = d.threshold) := by
  unfold calibrate
  dsimp only
  split_ifs with h1 h2
  · rw [hcal] at h1; cases h1
  · simp only [List.length_append, List.length_singleton] at h2
    refine ⟨rfl, by simp [h2], fun _ => ⟨rfl, rfl⟩, fun h => absurd h2 (by omega)⟩
  · simp only [List.length_append, List.length_singleton] at h2
    refine ⟨rfl, ?_, fun h => absurd h h2, fun _ => ⟨rfl, rfl⟩⟩
    rw [hcal]
    simp only [Bool.false_eq_true, false_iff]
    omega

/-- On an uncalibrated auto-mode call that does not complete calibration,
`preState` just appends the sample and the average EAR. -/
theorem AdaptiveBlinkDetector.preState_uncal_auto (d : AdaptiveBlinkDetector) (l r : ℚ)
    (hauto : d.preset_auto = true) (hcal : d.calibrated = false)
    (hlen : d.calibration_samples.length + 1 < 30) :
    d.preState l r
      = { d with
          calibration_samples := d.calibration_samples ++ [(l + r) / 2],
          ear_history := dequeAppend d.history_size d.ear_history ((l + r) / 2) } := by
  unfold preState calibrate
  dsimp only
  rw [hcal, hauto]
  simp only [Bool.not_false, Bool.true_and, if_true, Bool.false_eq_true, if_false]
  rw [if_neg (by simp only [List.length_append, List.length_singleton]; omega)]

/-- C1 (counterexample input): a fresh auto-mode V2 detector with the auto
preset threshold 0.2 and suppression off. -/
def c1d : AdaptiveBlinkDetector := AdaptiveBlinkDetector.init (1/5) true false 0

/-- C1 (counterexample input): five open-eye frames followed by one
closed-eye frame, all before calibration can complete. -/
def c1ins : List (ℚ × ℚ) :=
  [(3/10, 3/10), (3/10, 3/10), (3/10, 3/10), (3/10, 3/10), (3/10, 3/10), (1/100, 1/100)]

/-- C1 is false on the code: on the 6th frame the detector is still
uncalibrated (only 5 calibration samples collected, far fewer than 30), yet
`detect_blink` returns true, because once the 5-frame EAR history is full
the uncalibrated branch falls back to the rolling historical average instead
of reporting "no blink". -/
theorem C1_counterexample :
    (stateBefore c1d c1ins 5).calibrated = false
    ∧ (stateBefore c1d c1ins 5).calibration_samples.length < 30
    ∧ outSeq c1d c1ins 5 = true := by
  refine ⟨?_, ?_, ?_⟩ <;>
    norm_num [outSeq, stateBefore, runAdaptive, inputAt, c1d, c1ins,
      AdaptiveBlinkDetector.init, AdaptiveBlinkDetector.detect_blink,
      AdaptiveBlinkDetector.preState, AdaptiveBlinkDetector.classifyStep,
      AdaptiveBlinkDetector.rawCond, AdaptiveBlinkDetector.calibrate,
      dequeAppend, optionTruthy, List.getD, List.foldl, List.take]

/-- C1 (amended): in auto mode, while the detector is uncalibrated,
`detect_blink` returns false only as long as the EAR history is not yet full
(the first `history_size - 1` calls); once the history is full, an
uncalibrated call (with suppression off, and calibration still incomplete
after this call) instead compares the average EAR against the rolling
historical mean scaled by `1 - threshold`, and so can report a blink. -/
theorem C1_uncalibrated_fallback (d : AdaptiveBlinkDetector) (l r : ℚ)
    (hauto : d.preset_auto = true) (hcal : d.calibrated = false) :
    (d.ear_history.length + 1 < d.history_size → (d.detect_blink l r).1 = false)
    ∧ (d.history_size ≤ d.ear_history.length + 1 →
       d.calibration_samples.length + 1 < 30 →
       d.blink_suppression = false →
       (d.detect_blink l r).1
         = decide ((l + r) / 2
             < (d.preState l r).ear_history.sum
                 / ((d.preState l r).ear_history.length : ℚ) * (1 - d.threshold))) := by
  constructor
  · intro hshort
    have hlt : (d.preState l r).ear_history.length < (d.preState l r).history_size := by
      rw [AdaptiveBlinkDetector.preState_history_length,
        AdaptiveBlinkDetector.preState_history_size]
      omega
    show ((d.preState l r).classifyStep ((l + r) / 2)).1 = false
    rw [AdaptiveBlinkDetector.classify_not_full _ _ hlt]
  · intro hfull hsamp hsup
    have hpre := AdaptiveBlinkDetector.preState_uncal_auto d l r hauto hcal hsamp
    have hnlt : ¬ (d.preState l r).ear_history.length < (d.preState l r).history_size := by
      rw [AdaptiveBlinkDetector.preState_history_length,
        AdaptiveBlinkDetector.preState_history_size]
      omega
    have hsup1 : (d.preState l r).blink_suppression = false := by
      rw [AdaptiveBlinkDetector.preState_suppression]; exact hsup
    show ((d.preState l r).classifyStep ((l + r) / 2)).1 = _
    rw [AdaptiveBlinkDetector.classify_full_nosupp _ _ hnlt hsup1]
    unfold AdaptiveBlinkDetector.rawCond
    rw [hpre]
    simp [hcal]

/-- A concrete uncalibrated auto-mode detector whose history is already
full, for the C1 witness. -/
def c1wd : AdaptiveBlinkDetector :=
  { history_size := 5, threshold := 1/5, ear_history := [3/10, 3/10, 3/10, 3/10, 3/10],
    baseline_ear := none, calibration_samples := [3/10, 3/10, 3/10, 3/10, 3/10],
    calibrated := false, preset_auto := true, blink_suppression := false,
    min_blink_duration := 0, blink_counter := 0 }

theorem C1_uncalibrated_fallback_witness :
    ((AdaptiveBlinkDetector.init (1/5) true false 0).detect_blink (3/10) (3/10)).1 = false
    ∧ (c1wd.detect_blink (1/100) (1/100)).1
        = decide ((1/100 + 1/100 : ℚ) / 2
            < (c1wd.preState (1/100) (1/100)).ear_history.sum
                / ((c1wd.preState (1/100) (1/100)).ear_history.length : ℚ)
              * (1 - c1wd.threshold)) :=
  ⟨(C1_uncalibrated_fallback (AdaptiveBlinkDetector.init (1/5) true false 0)
      (3/10) (3/10) rfl rfl).1 (by decide),
   (C1_uncalibrated_fallback c1wd (1/100) (1/100) rfl rfl).2
      (by decide) (by decide) rfl⟩

/-- The 75th percentile of a constant sample list is that constant. -/
theorem percentile75_replicate (n : Nat) (x : ℚ) (hn : 0 < n) :
    percentile75 (List.replicate n x) = x := by
  unfold percentile75
  dsimp only
  have hsorted : List.Sorted (fun a b : ℚ => a ≤ b) (List.replicate n x) :=
    List.pairwise_replicate.mpr (Or.inr le_rfl)
  rw [hsorted.insertionSort_eq]
  rw [if_neg (by simp; omega)]
  have hlo : 3 * ((List.replicate n x).length - 1) / 4 < n := by
    simp only [List.length_replicate]
    omega
  have ha : (List.replicate n x).getD (3 * ((List.replicate n x).length - 1) / 4) 0 = x := by
    rw [List.getD_eq_getElem _ _ (by simpa using hlo), List.getElem_replicate]
  rw [ha]
  have hb : ∀ dflt : ℚ, dflt = x →
      (List.replicate n x).getD (3 * ((List.replicate n x).length - 1) / 4 + 1) dflt = x := by
    intro dflt hd
    by_cases hlt : 3 * ((List.replicate n x).length - 1) / 4 + 1 < n
    · rw [List.getD_eq_getElem _ _ (by simpa using hlt), List.getElem_replicate]
    · rw [List.getD_eq_default _ _ (by simpa using hlt)]
      exact hd
  rw [hb x rfl]
  ring

/-- During an uncalibrated auto-mode call, the calibration-related fields of
the post-append state are exactly those produced by `calibrate`. -/
theorem AdaptiveBlinkDetector.preState_calib_fields (d : AdaptiveBlinkDetector)
    (l r : ℚ) (hauto : d.preset_auto = true) (hcal : d.calibrated = false) :
    (d.preState l r).calibration_samples
        = (d.calibrate ((l + r) / 2)).calibration_samples
    ∧ (d.preState l r).calibrated = (d.calibrate ((l + r) / 2)).calibrated
    ∧ (d.preState l r).baseline_ear = (d.calibrate ((l + r) / 2)).baseline_ear
    ∧ (d.preState l r).threshold = (d.calibrate ((l + r) / 2)).threshold := by
  unfold preState
  dsimp only
  split
  · exact ⟨rfl, rfl, rfl, rfl⟩
  · rename_i h
    rw [hcal, hauto] at h
    simp at h

/-- The calibration-related fields of the state returned by `detect_blink`
are those of its post-append state. -/
theorem AdaptiveBlinkDetector.detect_snd_calib_fields (d : AdaptiveBlinkDetector)
    (l r : ℚ) :
    ((d.detect_blink l r).2).calibration_samples = (d.preState l r).calibration_samples
    ∧ ((d.detect_blink l r).2).calibrated = (d.preState l r).calibrated
    ∧ ((d.detect_blink l r).2).baseline_ear = (d.preState l r).baseline_ear
    ∧ ((d.detect_blink l r).2).threshold = (d.preState l r).threshold := by
  exact ⟨classify_snd_samples _ _, classify_snd_calibrated _ _,
    classify_snd_baseline _ _, classify_snd_threshold _ _⟩

theorem AdaptiveBlinkDetector.detect_snd_preset_auto (d : AdaptiveBlinkDetector)
    (l r : ℚ) : ((d.detect_blink l r).2).preset_auto = d.preset_auto := by
  unfold detect_blink
  rw [classify_snd_preset_auto, preState_preset_auto]

/-- C3 (concrete input): a fresh auto-mode V2 detector. -/
def c3d : AdaptiveBlinkDetector := AdaptiveBlinkDetector.init (1/5) true false 0

/-- C3 (concrete input): 30 frames whose average EAR is 0.25. -/
def c3ins : List (ℚ × ℚ) := List.replicate 30 (1/4, 1/4)

/-- C3: in auto mode, every uncalibrated `detect_blink` call appends the
average EAR to the calibration samples; the detector becomes calibrated
exactly on the call that brings the sample count to 30, installing the 75th
percentile of the samples as `baseline_ear` and 0.35 as the relative
threshold; concretely, 30 identical samples of 0.25 leave the detector
uncalibrated through call 29 and calibrated with `baseline_ear = 0.25` after
call 30. -/
theorem C3_auto_calibration :
    (∀ (d : AdaptiveBlinkDetector) (l r : ℚ),
      d.preset_auto = true → d.calibrated = false →
      (d.detect_blink l r).2.calibration_samples
          = d.calibration_samples ++ [(l + r) / 2]
      ∧ ((d.detect_blink l r).2.calibrated = true
          ↔ 30 ≤ d.calibration_samples.length + 1)
      ∧ (d.calibration_samples.length + 1 = 30 →
          (d.detect_blink l r).2.baseline_ear
            = some (percentile75 (d.calibration_samples ++ [(l + r) / 2]))
          ∧ (d.detect_blink l r).2.threshold = 7/20))
    ∧ ((stateBefore c3d c3ins 29).calibrated = false
       ∧ (stateBefore c3d c3ins 30).calibrated = true
       ∧ (stateBefore c3d c3ins 30).baseline_ear = some (1/4)
       ∧ (stateBefore c3d c3ins 30).threshold = 7/20) := by
  have general : ∀ (d : AdaptiveBlinkDetector) (l r : ℚ),
      d.preset_auto = true → d.calibrated = false →
      (d.detect_blink l r).2.calibration_samples
          = d.calibration_samples ++ [(l + r) / 2]
      ∧ ((d.detect_blink l r).2.calibrated = true
          ↔ 30 ≤ d.calibration_samples.length + 1)
      ∧ (d.calibration_samples.length + 1 = 30 →
          (d.detect_blink l r).2.baseline_ear
            = some (percentile75 (d.calibration_samples ++ [(l + r) / 2]))
          ∧ (d.detect_blink l r).2.threshold = 7/20) := by
    intro d l r hauto hcal
    obtain ⟨hps, hpc, hpb, hpt⟩ :=
      AdaptiveBlinkDetector.preState_calib_fields d l r hauto hcal
    obtain ⟨hds, hdc, hdb, hdt⟩ := AdaptiveBlinkDetector.detect_snd_calib_fields d l r
    obtain ⟨hcs, hcc, hc30, _⟩ :=
      AdaptiveBlinkDetector.calibrate_uncal d ((l + r) / 2) hcal
    refine ⟨?_, ?_, ?_⟩
    · rw [hds, hps, hcs]
    · rw [hdc, hpc, hcc]
    · intro h30
      obtain ⟨hbase, hthr⟩ := hc30 (by omega)
      constructor
      · rw [hdb, hpb, hbase]
      · rw [hdt, hpt, hthr]
  refine ⟨general, ?_⟩
  have havg : ((1 : ℚ)/4 + 1/4) / 2 = 1/4 := by norm_num
  have hinput : ∀ j, j < 30 → inputAt c3ins j = (1/4, 1/4) := by
    intro j hj
    unfold inputAt c3ins
    rw [List.getD_eq_getElem _ _ (by simpa using hj), List.getElem_replicate]
  have key : ∀ k, k ≤ 29 →
      (stateBefore c3d c3ins k).calibration_samples = List.replicate k (1/4)
      ∧ (stateBefore c3d c3ins k).calibrated = false
      ∧ (stateBefore c3d c3ins k).preset_auto = true := by
    intro k
    induction k with
    | zero => exact fun _ => ⟨rfl, rfl, rfl⟩
    | succ j ih =>
      intro hj29
      obtain ⟨ihs, ihc, iha⟩ := ih (by omega)
      have hj : j < c3ins.length := by
        simp only [c3ins, List.length_replicate]
        omega
      have hstep := stateBefore_succ c3ins c3d j hj
      have hg := general (stateBefore c3d c3ins j) (inputAt c3ins j).1
        (inputAt c3ins j).2 iha ihc
      have hin := hinput j (by omega)
      refine ⟨?_, ?_, ?_⟩
      · rw [hstep, hg.1, ihs, hin]
        dsimp only
        rw [havg, ← List.replicate_succ']
      · rw [hstep]
        have hiff := hg.2.1
        rw [ihs] at hiff
        simp only [List.length_replicate] at hiff
        cases hval : ((stateBefore c3d c3ins j).detect_blink (inputAt c3ins j).1
            (inputAt c3ins j).2).2.calibrated
        · rfl
        · exact absurd (hiff.mp hval) (by omega)
      · rw [hstep, AdaptiveBlinkDetector.detect_snd_preset_auto]
        exact iha
  obtain ⟨h29s, h29c, h29a⟩ := key 29 le_rfl
  have h29lt : 29 < c3ins.length := by simp [c3ins]
  have hstep := stateBefore_succ c3ins c3d 29 h29lt
  have hg := general (stateBefore c3d c3ins 29) (inputAt c3ins 29).1
    (inputAt c3ins 29).2 h29a h29c
  have hin := hinput 29 (by omega)
  have hlen29 : (stateBefore c3d c3ins 29).calibration_samples.length = 29 := by
    rw [h29s, List.length_replicate]
  refine ⟨h29c, ?_, ?_, ?_⟩
  · rw [hstep]
    exact hg.2.1.mpr (by omega)
  · rw [hstep]
    obtain ⟨hbase, _⟩ := hg.2.2 (by omega)
    rw [hbase, h29s, hin]
    dsimp only
    rw [havg, ← List.replicate_succ', percentile75_replicate 30 (1/4) (by omega)]
  · rw [hstep]
    exact (hg.2.2 (by omega)).2

/-- An uncalibrated auto-mode detector that already holds 29 calibration
samples, for the C3 witness. -/
def c3w29 : AdaptiveBlinkDetector :=
  { c3d with calibration_samples := List.replicate 29 (1/4) }

theorem C3_auto_calibration_witness :
    (c3d.detect_blink (1/4) (1/4)).2.calibration_samples
        = c3d.calibration_samples ++ [((1:ℚ)/4 + 1/4) / 2]
    ∧ (c3w29.detect_blink (1/4) (1/4)).2.baseline_ear
        = some (percentile75 (c3w29.calibration_samples ++ [((1:ℚ)/4 + 1/4) / 2])) :=
  ⟨(C3_auto_calibration.1 c3d (1/4) (1/4) rfl rfl).1,
   ((C3_auto_calibration.1 c3w29 (1/4) (1/4) rfl rfl).2.2
      (by simp [c3w29, c3d, AdaptiveBlinkDetector.init])).1⟩

/-- C4 is false on the code: the overrides are tested with `>= 0`, not
against the sentinel -1, so the non-sentinel override -1/2 is ignored for
all three fields and the preset defaults win. -/
theorem C4_counterexample :
    ((-1 : ℚ)/2 ≠ -1)
    ∧ (resolveParams (ETHNICITY_PRESETS EthnicityPreset.auto) (-1/2) (-1/2) (-1/2)).1
        = (ETHNICITY_PRESETS EthnicityPreset.auto).smoothing_strength
    ∧ (resolveParams (ETHNICITY_PRESETS EthnicityPreset.auto) (-1/2) (-1/2) (-1/2)).1
        ≠ -1/2
    ∧ (resolveParams (ETHNICITY_PRESETS EthnicityPreset.auto) (-1/2) (-1/2) (-1/2)).2.1
        ≠ -1/2
    ∧ (resolveParams (ETHNICITY_PRESETS EthnicityPreset.auto) (-1/2) (-1/2) (-1/2)).2.2
        ≠ -1/2 := by
  refine ⟨by norm_num, ?_, ?_, ?_, ?_⟩ <;>
    norm_num [resolveParams, ETHNICITY_PRESETS]

/-- C4 (amended): for each of the three overridable fields independently, a
nonnegative override value is the effective parameter, and any negative
override (the sentinel -1 or any other negative value) selects the resolved
preset's default. -/
theorem C4_override_resolution (p : Preset)
    (so eo bo : ℚ) :
    ((0 ≤ so → (resolveParams p so eo bo).1 = so)
      ∧ (so < 0 → (resolveParams p so eo bo).1 = p.smoothing_strength))
    ∧ ((0 ≤ eo → (resolveParams p so eo bo).2.1 = eo)
      ∧ (eo < 0 → (resolveParams p so eo bo).2.1 = p.enhancement_strength))
    ∧ ((0 ≤ bo → (resolveParams p so eo bo).2.2 = bo)
      ∧ (bo < 0 → (resolveParams p so eo bo).2.2 = p.blink_threshold)) := by
  unfold resolveParams
  refine ⟨⟨?_, ?_⟩, ⟨?_, ?_⟩, ⟨?_, ?_⟩⟩ <;> intro h <;>
    simp [h, not_le.mpr, le_of_lt] <;>
    first
      | rfl
      | (rw [if_neg (not_le.mpr h)])

theorem C4_override_resolution_witness :
    (resolveParams (ETHNICITY_PRESETS EthnicityPreset.caucasian) (1/2) (-1) 0).1 = 1/2
    ∧ (resolveParams (ETHNICITY_PRESETS EthnicityPreset.caucasian) (1/2) (-1) 0).2.1
        = (ETHNICITY_PRESETS EthnicityPreset.caucasian).enhancement_strength
    ∧ (resolveParams (ETHNICITY_PRESETS EthnicityPreset.caucasian) (1/2) (-1) 0).2.2 = 0 :=
  ⟨(C4_override_resolution (ETHNICITY_PRESETS EthnicityPreset.caucasian)
      (1/2) (-1) 0).1.1 (by norm_num),
   (C4_override_resolution (ETHNICITY_PRESETS EthnicityPreset.caucasian)
      (1/2) (-1) 0).2.1.2 (by norm_num),
   (C4_override_resolution (ETHNICITY_PRESETS EthnicityPreset.caucasian)
      (1/2) (-1) 0).2.2.1 le_rfl⟩

/-- Both branches of the V1 `detect_blink` return the appended-history
state. -/
theorem BlinkDetector.detect_snd (d : BlinkDetector) (l r : ℚ) :
    (d.detect_blink l r).2
      = { d with ear_history := dequeAppend d.history_size d.ear_history ((l + r) / 2) } := by
  unfold detect_blink
  dsimp only
  split <;> rfl

/-- V1 warm-up: while the post-append history is shorter than the capacity,
`detect_blink` reports no blink. -/
theorem BlinkDetector.detect_not_full (d : BlinkDetector) (l r : ℚ)
    (h : min d.history_size (d.ear_history.length + 1) < d.history_size) :
    (d.detect_blink l r).1 = false := by
  unfold detect_blink
  dsimp only
  split
  · rfl
  · rename_i hc
    rw [dequeAppend_length] at hc
    omega

/-- V1 detector state after consuming a list of EAR pairs. -/
def runV1 (d : BlinkDetector) (inputs : List (ℚ × ℚ)) : BlinkDetector :=
  inputs.foldl (fun s p => (s.detect_blink p.1 p.2).2) d

/-- V1 detector state just before the `i`-th call of a sequence. -/
def stateBeforeV1 (d : BlinkDetector) (inputs : List (ℚ × ℚ)) (i : Nat) : BlinkDetector :=
  runV1 d (inputs.take i)

/-- The boolean returned by the `i`-th V1 `detect_blink` call. -/
def outSeqV1 (d : BlinkDetector) (inputs : List (ℚ × ℚ)) (i : Nat) : Bool :=
  ((stateBeforeV1 d inputs i).detect_blink (inputAt inputs i).1 (inputAt inputs i).2).1

/-- Unrolling of `stateBeforeV1` by one call. -/
theorem stateBeforeV1_succ :
    ∀ (inputs : List (ℚ × ℚ)) (d : BlinkDetector) (i : Nat),
      i < inputs.length →
      stateBeforeV1 d inputs (i + 1)
        = ((stateBeforeV1 d inputs i).detect_blink (inputAt inputs i).1
            (inputAt inputs i).2).2
  | [], _, i, h => absurd h (by simp)
  | p :: rest, d, 0, _ => by
      simp [stateBeforeV1, runV1, inputAt]
  | p :: rest, d, i + 1, h => by
      have ih := stateBeforeV1_succ rest ((d.detect_blink p.1 p.2).2) i
        (by simpa using Nat.lt_of_succ_lt_succ h)
      simpa [stateBeforeV1, runV1, inputAt] using ih

/-- Along a V1 trace the capacity is constant and the history length grows
by at most one per call. -/
theorem stateBeforeV1_len (d : BlinkDetector) (inputs : List (ℚ × ℚ)) (i : Nat) :
    (stateBeforeV1 d inputs i).history_size = d.history_size
    ∧ (stateBeforeV1 d inputs i).ear_history.length ≤ d.ear_history.length + i := by
  induction i with
  | zero => exact ⟨rfl, le_rfl⟩
  | succ j ih =>
    by_cases hj : j < inputs.length
    · rw [stateBeforeV1_succ inputs d j hj, BlinkDetector.detect_snd]
      refine ⟨ih.1, ?_⟩
      have := ih.2
      simp only [dequeAppend_length]
      omega
    · have h1 : inputs.length ≤ j := le_of_not_lt hj
      unfold stateBeforeV1
      rw [List.take_of_length_le (Nat.le_succ_of_le h1)]
      unfold stateBeforeV1 at ih
      rw [List.take_of_length_le h1] at ih
      exact ⟨ih.1, by omega⟩

/-- Along a V2 trace the history length grows by at most one per call. -/
theorem stateBefore_len_growth (d : AdaptiveBlinkDetector) (inputs : List (ℚ × ℚ))
    (i : Nat) :
    (stateBefore d inputs i).ear_history.length ≤ d.ear_history.length + i := by
  induction i with
  | zero => exact le_rfl
  | succ j ih =>
    by_cases hj : j < inputs.length
    · rw [stateBefore_succ inputs d j hj,
        AdaptiveBlinkDetector.detect_snd_history_length]
      omega
    · have h1 : inputs.length ≤ j := le_of_not_lt hj
      rw [stateBefore_stable d inputs (j + 1) (Nat.le_succ_of_le h1)]
      rw [stateBefore_stable d inputs j h1] at ih
      omega

/-- C8: a fresh detector with history capacity 5 (V1 `BlinkDetector` with
any threshold, and V2 `AdaptiveBlinkDetector` with any threshold, population
selector and suppression configuration) returns false on each of its first
4 `detect_blink` calls, whatever the EAR inputs. -/
theorem C8_warmup_frames (inputs : List (ℚ × ℚ)) (t : ℚ) (pa sup : Bool) (md : Nat)
    (hlen : inputs.length ≤ 4) :
    (∀ i, i < inputs.length → outSeqV1 (BlinkDetector.init 5 t) inputs i = false)
    ∧ (∀ i, i < inputs.length →
        outSeq (AdaptiveBlinkDetector.init t pa sup md) inputs i = false) := by
  constructor
  · intro i hi
    obtain ⟨hhs, hl⟩ := stateBeforeV1_len (BlinkDetector.init 5 t) inputs i
    have h0 : (BlinkDetector.init 5 t).ear_history.length = 0 := rfl
    have h5 : (BlinkDetector.init 5 t).history_size = 5 := rfl
    rw [h0] at hl
    rw [h5] at hhs
    apply BlinkDetector.detect_not_full
    rw [hhs]
    omega
  · intro i hi
    have hl := stateBefore_len_growth (AdaptiveBlinkDetector.init t pa sup md) inputs i
    have hhs := (stateBefore_props (AdaptiveBlinkDetector.init t pa sup md) inputs i).2.2
    have h0 : (AdaptiveBlinkDetector.init t pa sup md).ear_history.length = 0 := rfl
    have h5 : (AdaptiveBlinkDetector.init t pa sup md).history_size = 5 := rfl
    rw [h0] at hl
    rw [h5] at hhs
    exact (trace_step_not_full (AdaptiveBlinkDetector.init t pa sup md) inputs i hi
      (by omega)).1

theorem C8_warmup_frames_witness :
    outSeqV1 (BlinkDetector.init 5 (1/5)) [(1/100, 1/100), (3/10, 3/10)] 1 = false
    ∧ outSeq (AdaptiveBlinkDetector.init (1/5) true false 0)
        [(1/100, 1/100), (3/10, 3/10)] 1 = false :=
  ⟨(C8_warmup_frames [(1/100, 1/100), (3/10, 3/10)] (1/5) true false 0
      (by decide)).1 1 (by decide),
   (C8_warmup_frames [(1/100, 1/100), (3/10, 3/10)] (1/5) true false 0
      (by decide)).2 1 (by decide)⟩

/-- The Scalar Smoother run on the constant measurement stream `c`, starting
from the state the nodes create: estimate 0, error estimate 1, process
variance `1e-3 * (1 - strength)`, measurement variance `1e-1`. -/
def kalmanIterate (c s : ℚ) : Nat → KalmanFilter1D
  | 0 => KalmanFilter1D.init ((1/1000) * (1 - s)) (1/10)
  | n + 1 => (kalmanIterate c s n).update c

/-- One `update` call contracts the distance of the estimate to the
measurement, strictly so when they differ, and keeps the error estimate
positive. -/
theorem kalman_step_contract (kf : KalmanFilter1D) (c : ℚ)
    (hP : 0 < kf.error_estimate) (hq : 0 ≤ kf.process_variance)
    (hr : 0 < kf.measurement_variance) :
    0 < (kf.update c).error_estimate
    ∧ |(kf.update c).estimate - c| ≤ |kf.estimate - c|
    ∧ (kf.estimate ≠ c → |(kf.update c).estimate - c| < |kf.estimate - c|) := by
  have hpe_pos : 0 < kf.error_estimate + kf.process_variance := by linarith
  have hd_pos : 0 < kf.error_estimate + kf.process_variance + kf.measurement_variance := by
    linarith
  have hK_pos : 0 < (kf.error_estimate + kf.process_variance)
      / (kf.error_estimate + kf.process_variance + kf.measurement_variance) :=
    div_pos hpe_pos hd_pos
  have hK_lt : (kf.error_estimate + kf.process_variance)
      / (kf.error_estimate + kf.process_variance + kf.measurement_variance) < 1 :=
    (div_lt_one hd_pos).mpr (by linarith)
  have herr : (kf.update c).error_estimate
      = (1 - (kf.error_estimate + kf.process_variance)
          / (kf.error_estimate + kf.process_variance + kf.measurement_variance))
        * (kf.error_estimate + kf.process_variance) := rfl
  have hest : (kf.update c).estimate - c
      = (1 - (kf.error_estimate + kf.process_variance)
          / (kf.error_estimate + kf.process_variance + kf.measurement_variance))
        * (kf.estimate - c) := by
    show kf.estimate + _ * (c - kf.estimate) - c = _
    ring
  have h1K : 0 < 1 - (kf.error_estimate + kf.process_variance)
      / (kf.error_estimate + kf.process_variance + kf.measurement_variance) := by linarith
  refine ⟨?_, ?_, ?_⟩
  · rw [herr]
    exact mul_pos h1K hpe_pos
  · rw [hest, abs_mul, abs_of_pos h1K]
    calc (1 - _) * |kf.estimate - c| ≤ 1 * |kf.estimate - c| :=
          mul_le_mul_of_nonneg_right (by linarith) (abs_nonneg _)
      _ = |kf.estimate - c| := one_mul _
  · intro hne
    rw [hest, abs_mul, abs_of_pos h1K]
    have habs : 0 < |kf.estimate - c| := abs_pos.mpr (sub_ne_zero.mpr hne)
    exact mul_lt_of_lt_one_left habs (by linarith)

theorem kalmanIterate_pv (c s : ℚ) (n : Nat) :
    (kalmanIterate c s n).process_variance = (1/1000) * (1 - s) := by
  induction n with
  | zero => rfl
  | succ m ih => rw [show kalmanIterate c s (m + 1) = (kalmanIterate c s m).update c from rfl,
      KalmanFilter1D.update_process_variance, ih]

theorem kalmanIterate_mv (c s : ℚ) (n : Nat) :
    (kalmanIterate c s n).measurement_variance = 1/10 := by
  induction n with
  | zero => rfl
  | succ m ih => rw [show kalmanIterate c s (m + 1) = (kalmanIterate c s m).update c from rfl,
      KalmanFilter1D.update_measurement_variance, ih]

theorem kalmanIterate_err_pos (c s : ℚ) (n : Nat) (h1 : s ≤ 1) :
    0 < (kalmanIterate c s n).error_estimate := by
  induction n with
  | zero => exact one_pos
  | succ m ih =>
    exact (kalman_step_contract (kalmanIterate c s m) c ih
      (by rw [kalmanIterate_pv]; nlinarith)
      (by rw [kalmanIterate_mv]; norm_num)).1

/-- C7: for every constant `c` and smoothing strength in [0,1], the Scalar
Smoother fed the constant stream `c` approaches `c` monotonically: each step
decreases `|estimate - c|` weakly, and strictly whenever the estimate has
not yet reached `c`. -/
theorem C7_kalman_monotone (c s : ℚ) (n : Nat) (h0 : 0 ≤ s) (h1 : s ≤ 1) :
    |(kalmanIterate c s (n + 1)).estimate - c| ≤ |(kalmanIterate c s n).estimate - c|
    ∧ ((kalmanIterate c s n).estimate ≠ c →
        |(kalmanIterate c s (n + 1)).estimate - c| < |(kalmanIterate c s n).estimate - c|) := by
  have hstep := kalman_step_contract (kalmanIterate c s n) c
    (kalmanIterate_err_pos c s n h1)
    (by rw [kalmanIterate_pv]; nlinarith)
    (by rw [kalmanIterate_mv]; norm_num)
  exact ⟨hstep.2.1, hstep.2.2⟩

theorem C7_kalman_monotone_witness :
    |(kalmanIterate 1 (1/2) 1).estimate - 1| < |(kalmanIterate 1 (1/2) 0).estimate - 1| :=
  (C7_kalman_monotone 1 (1/2) 0 (by norm_num) (by norm_num)).2
    (by norm_num [kalmanIterate, KalmanFilter1D.init])

/-! ### The per-landmark filter bank of `_apply_smoothing` -/

/-- The coordinate axis suffix of a filter key (`_x` / `_y`). -/
inductive Axis
  | x
  | y
deriving DecidableEq

/-- A key of `self.landmark_filters`: the Python code uses the string
`f"{key}_{i}_{axis}"`; the three components are modelled as a tuple. -/
abbrev FilterKey := String × Nat × Axis

/-- Embeds `self.landmark_filters`, a Python dict modelled as an association list
(most recent binding first). -/
abbrev FilterMap := List (FilterKey × KalmanFilter1D)

/-- Dict lookup. -/
def findFilter : FilterMap → FilterKey → Option KalmanFilter1D
  | [], _ => none
  | (k, f) :: rest, k2 => if k2 = k then some f else findFilter rest k2

/-- Dict assignment to an existing key. -/
def setFilter : FilterMap → FilterKey → KalmanFilter1D → FilterMap
  | [], _, _ => []
  | (k, f) :: rest, k2, f2 => if k2 = k then (k, f2) :: rest else (k, f) :: setFilter rest k2 f2

/-- Dict insertion (shadowing any earlier binding, as assignment does). -/
def insertFilter (m : FilterMap) (k : FilterKey) (f : KalmanFilter1D) : FilterMap :=
  (k, f) :: m

/-- Embeds `self.landmark_filters[k].update(x)`: run the stored filter, returning
the smoothed value and the map with the filter's new state.  The `none`
branch is Python's KeyError path, never reached by `_apply_smoothing`
because the filter is created just before. -/
def updateFilterAt (m : FilterMap) (k : FilterKey) (measurement : ℚ) : ℚ × FilterMap :=
  match findFilter m k with
  | none => (0, m)
  | some f =>
    let f2 := f.update measurement
    (f2.estimate, setFilter m k f2)

/-- The loop body of `_apply_smoothing` (`eye_stabilizer_v2_node.py` lines
616-639 and identical `eye_stabilizer_node.py` lines 418-443), indexed by
the enumeration counter `i`: lazily create the x/y filter pair with
`process_variance = 1e-3 * (1 - strength)` and `measurement_variance =
1e-1` when the x key is missing, then update both filters. -/
def applySmoothingAux (key : String) (strength : ℚ) :
    FilterMap → Nat → List (ℚ × ℚ) → List (ℚ × ℚ) × FilterMap
  | m, _, [] => ([], m)
  | m, i, (px, py) :: rest =>
    let kx : FilterKey := (key, i, Axis.x)
    let ky : FilterKey := (key, i, Axis.y)
    let m1 :=
      if (findFilter m kx).isNone then
        let variance := (1/1000) * (1 - strength)
        insertFilter (insertFilter m kx (KalmanFilter1D.init variance (1/10))) ky
          (KalmanFilter1D.init variance (1/10))
      else m
    let ux := updateFilterAt m1 kx px
    let uy := updateFilterAt ux.2 ky py
    let res := applySmoothingAux key strength uy.2 (i + 1) rest
    ((ux.1, uy.1) :: res.1, res.2)

/-- Embeds `_apply_smoothing`: smooth a landmark list against the filter bank,
returning the smoothed landmarks and the updated bank. -/
def apply_smoothing (m : FilterMap) (landmarks : List (ℚ × ℚ)) (key : String)
    (strength : ℚ) : List (ℚ × ℚ) × FilterMap :=
  applySmoothingAux key strength m 0 landmarks

/-- The two variance parameters of a filter, which `update` never alters. -/
def varPair (f : KalmanFilter1D) : ℚ × ℚ := (f.process_variance, f.measurement_variance)

theorem varPair_update (f : KalmanFilter1D) (x : ℚ) : varPair (f.update x) = varPair f := rfl

theorem findFilter_insert (m : FilterMap) (k : FilterKey) (f : KalmanFilter1D)
    (k2 : FilterKey) :
    findFilter (insertFilter m k f) k2 = if k2 = k then some f else findFilter m k2 := rfl

theorem findFilter_set_ne (m : FilterMap) (k : FilterKey) (f2 : KalmanFilter1D)
    (k2 : FilterKey) (h : k2 ≠ k) :
    findFilter (setFilter m k f2) k2 = findFilter m k2 := by
  induction m with
  | nil => rfl
  | cons hd tl ih =>
    obtain ⟨k0, f0⟩ := hd
    simp only [setFilter, findFilter]
    by_cases hk : k = k0
    · subst hk
      rw [if_pos rfl]
      simp only [findFilter]
      rw [if_neg h, if_neg h]
    · rw [if_neg hk]
      simp only [findFilter]
      by_cases hk2 : k2 = k0
      · rw [if_pos hk2, if_pos hk2]
      · rw [if_neg hk2, if_neg hk2, ih]

theorem findFilter_set_self (m : FilterMap) (k : FilterKey) (f2 f : KalmanFilter1D)
    (h : findFilter m k = some f) :
    findFilter (setFilter m k f2) k = some f2 := by
  induction m with
  | nil => cases h
  | cons hd tl ih =>
    obtain ⟨k0, f0⟩ := hd
    simp only [setFilter, findFilter] at h ⊢
    by_cases hk : k = k0
    · rw [if_pos hk]
      simp only [findFilter]
      rw [if_pos hk]
    · rw [if_neg hk]
      simp only [findFilter]
      rw [if_neg hk]
      rw [if_neg hk] at h
      exact ih h

theorem updateFilterAt_var (m : FilterMap) (k : FilterKey) (x : ℚ) (k2 : FilterKey) :
    (findFilter (updateFilterAt m k x).2 k2).map varPair
      = (findFilter m k2).map varPair := by
  unfold updateFilterAt
  cases h : findFilter m k with
  | none => rfl
  | some f =>
    dsimp only
    by_cases hk : k2 = k
    · subst hk
      rw [findFilter_set_self m k2 _ f h, h]
      rfl
    · rw [findFilter_set_ne m k _ k2 hk]

theorem updateFilterAt_isSome (m : FilterMap) (k : FilterKey) (x : ℚ) (k2 : FilterKey) :
    (findFilter (updateFilterAt m k x).2 k2).isSome = (findFilter m k2).isSome := by
  calc (findFilter (updateFilterAt m k x).2 k2).isSome
      = ((findFilter (updateFilterAt m k x).2 k2).map varPair).isSome :=
        Option.isSome_map'.symm
    _ = ((findFilter m k2).map varPair).isSome := by rw [updateFilterAt_var]
    _ = (findFilter m k2).isSome := Option.isSome_map'

/-- The filter bank keeps x/y filters in pairs: both members of a pair are
present or absent together (true of the empty bank the nodes start from,
and preserved by `_apply_smoothing`, which creates both together). -/
def PairedKeys (m : FilterMap) : Prop :=
  ∀ s n, (findFilter m (s, n, Axis.x)).isSome = (findFilter m (s, n, Axis.y)).isSome

/-- Behaviour of the `_apply_smoothing` loop on the filter bank, for any
starting enumeration index: existing filters keep their variances, filters
created during the call carry the variances derived from this call's
strength, and every landmark index processed ends up with both its filters
present. -/
theorem applySmoothingAux_spec (key : String) (strength : ℚ) :
    ∀ (landmarks : List (ℚ × ℚ)) (m : FilterMap) (i0 : Nat), PairedKeys m →
      (∀ k f, findFilter m k = some f →
        ∃ f2, findFilter (applySmoothingAux key strength m i0 landmarks).2 k = some f2
          ∧ varPair f2 = varPair f)
      ∧ (∀ k f2, findFilter m k = none →
          findFilter (applySmoothingAux key strength m i0 landmarks).2 k = some f2 →
          varPair f2 = ((1/1000) * (1 - strength), 1/10))
      ∧ (∀ j ax, i0 ≤ j → j < i0 + landmarks.length →
          (findFilter (applySmoothingAux key strength m i0 landmarks).2
              (key, j, ax)).isSome = true) := by
  intro landmarks
  induction landmarks with
  | nil =>
    intro m i0 _
    refine ⟨fun k f hf => ⟨f, hf, rfl⟩, ?_, ?_⟩
    · intro k f2 hn hs
      have hs2 : findFilter m k = some f2 := hs
      rw [hn] at hs2
      cases hs2
    · intro j ax h1 h2
      simp only [List.length_nil] at h2
      omega
  | cons p rest ih =>
    obtain ⟨px, py⟩ := p
    intro m i0 hpair
    set fnew := KalmanFilter1D.init ((1/1000) * (1 - strength)) (1/10) with hfnew
    set m1 := if (findFilter m (key, i0, Axis.x)).isNone then
        insertFilter (insertFilter m (key, i0, Axis.x) fnew) (key, i0, Axis.y) fnew
      else m with hm1
    set m2 := (updateFilterAt (updateFilterAt m1 (key, i0, Axis.x) px).2
        (key, i0, Axis.y) py).2 with hm2
    have hsnd : (applySmoothingAux key strength m i0 ((px, py) :: rest)).2
        = (applySmoothingAux key strength m2 (i0 + 1) rest).2 := rfl
    have hvar12 : ∀ k2, (findFilter m2 k2).map varPair = (findFilter m1 k2).map varPair := by
      intro k2
      rw [hm2, updateFilterAt_var, updateFilterAt_var]
    have hsome12 : ∀ k2, (findFilter m2 k2).isSome = (findFilter m1 k2).isSome := by
      intro k2
      rw [hm2, updateFilterAt_isSome, updateFilterAt_isSome]
    have hm1_keep : ∀ k f, findFilter m k = some f → findFilter m1 k = some f := by
      intro k f hf
      rw [hm1]
      split
      · rename_i hcreate
        rw [findFilter_insert, findFilter_insert]
        have hkx : k ≠ (key, i0, Axis.x) := by
          intro he
          rw [he] at hf
          rw [Option.isNone_iff_eq_none.mp hcreate] at hf
          cases hf
        have hky : k ≠ (key, i0, Axis.y) := by
          intro he
          have h1 : (findFilter m (key, i0, Axis.y)).isSome = true := by
            rw [← he, hf]
            rfl
          have h2 := hpair key i0
          rw [Option.isNone_iff_eq_none.mp hcreate] at h2
          rw [← h2] at h1
          cases h1
        rw [if_neg hky, if_neg hkx]
        exact hf
      · exact hf
    have hm1_new : ∀ k, findFilter m k = none →
        findFilter m1 k = none ∨ findFilter m1 k = some fnew := by
      intro k hn
      rw [hm1]
      split
      · rw [findFilter_insert, findFilter_insert]
        by_cases hky : k = (key, i0, Axis.y)
        · rw [if_pos hky]
          exact Or.inr rfl
        · rw [if_neg hky]
          by_cases hkx : k = (key, i0, Axis.x)
          · rw [if_pos hkx]
            exact Or.inr rfl
          · rw [if_neg hkx]
            exact Or.inl hn
      · exact Or.inl hn
    have hm1_present : ∀ ax : Axis, (findFilter m1 (key, i0, ax)).isSome = true := by
      intro ax
      rw [hm1]
      split
      · rename_i hcreate
        rw [findFilter_insert, findFilter_insert]
        cases ax
        · rw [if_neg (by simp), if_pos rfl]
          rfl
        · rw [if_pos rfl]
          rfl
      · rename_i hcreate
        cases ax
        · exact Option.ne_none_iff_isSome.mp (by simpa using hcreate)
        · rw [← hpair key i0]
          exact Option.ne_none_iff_isSome.mp (by simpa using hcreate)
    have hpair1 : PairedKeys m1 := by
      intro s n
      rw [hm1]
      split
      · rename_i hcreate
        rw [findFilter_insert, findFilter_insert, findFilter_insert, findFilter_insert]
        by_cases hsn : s = key ∧ n = i0
        · obtain ⟨hs, hn⟩ := hsn
          subst hs
          subst hn
          rw [if_neg (by simp), if_pos rfl, if_pos rfl]
        · have hx : (s, n, Axis.x) ≠ (key, i0, Axis.x) := by
            intro h
            exact hsn ⟨congrArg Prod.fst h, congrArg (fun q : FilterKey => q.2.1) h⟩
          have hy : (s, n, Axis.y) ≠ (key, i0, Axis.y) := by
            intro h
            exact hsn ⟨congrArg Prod.fst h, congrArg (fun q : FilterKey => q.2.1) h⟩
          have hxy : (s, n, Axis.x) ≠ (key, i0, Axis.y) := fun h =>
            Axis.noConfusion (congrArg (fun q : FilterKey => q.2.2) h)
          have hyx : (s, n, Axis.y) ≠ (key, i0, Axis.x) := fun h =>
            Axis.noConfusion (congrArg (fun q : FilterKey => q.2.2) h)
          rw [if_neg hxy, if_neg hx, if_neg hy, if_neg hyx]
          exact hpair s n
      · exact hpair s n
    have hpair2 : PairedKeys m2 := by
      intro s n
      rw [hsome12, hsome12]
      exact hpair1 s n
    obtain ⟨ih1, ih2, ih3⟩ := ih m2 (i0 + 1) hpair2
    have hlift : ∀ k f, findFilter m1 k = some f →
        ∃ f2, findFilter (applySmoothingAux key strength m2 (i0 + 1) rest).2 k = some f2
          ∧ varPair f2 = varPair f := by
      intro k f hf
      have hv := hvar12 k
      rw [hf] at hv
      obtain ⟨f2, hf2, hvf2⟩ := Option.map_eq_some'.mp hv
      obtain ⟨f3, hf3, hvf3⟩ := ih1 k f2 hf2
      exact ⟨f3, hf3, by rw [hvf3, hvf2]⟩
    refine ⟨?_, ?_, ?_⟩
    · intro k f hf
      rw [hsnd]
      exact hlift k f (hm1_keep k f hf)
    · intro k f2 hn hfinal
      rw [hsnd] at hfinal
      rcases hm1_new k hn with hnone | hcreated
      · have hnone2 : findFilter m2 k = none := by
          have := hsome12 k
          rw [hnone] at this
          cases h2 : findFilter m2 k with
          | none => rfl
          | some f0 =>
            rw [h2] at this
            cases this
        exact ih2 k f2 hnone2 hfinal
      · obtain ⟨f3, hf3, hvf3⟩ := hlift k fnew hcreated
        rw [hfinal] at hf3
        cases hf3
        rw [hvf3]
        rfl
    · intro j ax h1 h2
      rw [hsnd]
      by_cases hj : j = i0
      · subst hj
        have hp := hm1_present ax
        obtain ⟨f, hf⟩ := Option.isSome_iff_exists.mp hp
        obtain ⟨f3, hf3, _⟩ := hlift (key, j, ax) f hf
        rw [hf3]
        rfl
      · have := ih3 j ax (by omega)
        apply this
        simp only [List.length_cons] at h2
        omega

/-- C5: within one sequence invocation, the two scalar smoothers of a
landmark key are created by the first `_apply_smoothing` call that observes
the key, with `process_variance = 1e-3 * (1 - strength)` taken from that
call's strength and `measurement_variance = 1e-1`; every filter already
present keeps both variances unchanged through later calls, whatever
strength those calls pass. -/
theorem C5_lazy_filter_creation (m : FilterMap) (landmarks : List (ℚ × ℚ))
    (key : String) (strength : ℚ) (hpair : PairedKeys m) :
    (∀ k f, findFilter m k = some f →
       ∃ f2, findFilter (apply_smoothing m landmarks key strength).2 k = some f2
         ∧ f2.process_variance = f.process_variance
         ∧ f2.measurement_variance = f.measurement_variance)
    ∧ (∀ k f2, findFilter m k = none →
         findFilter (apply_smoothing m landmarks key strength).2 k = some f2 →
         f2.process_variance = (1/1000) * (1 - strength)
         ∧ f2.measurement_variance = 1/10)
    ∧ (∀ i ax, i < landmarks.length →
         (findFilter (apply_smoothing m landmarks key strength).2 (key, i, ax)).isSome
           = true) := by
  obtain ⟨h1, h2, h3⟩ := applySmoothingAux_spec key strength landmarks m 0 hpair
  refine ⟨?_, ?_, ?_⟩
  · intro k f hf
    obtain ⟨f2, hf2, hv⟩ := h1 k f hf
    exact ⟨f2, hf2, congrArg Prod.fst hv, congrArg Prod.snd hv⟩
  · intro k f2 hn hf
    have hv := h2 k f2 hn hf
    exact ⟨congrArg Prod.fst hv, congrArg Prod.snd hv⟩
  · intro i ax hi
    exact h3 i ax (Nat.zero_le i) (by omega)

theorem C5_lazy_filter_creation_witness :
    (findFilter (apply_smoothing [] [((1 : ℚ), 2)] ("left_eye") (1/2)).2
        (("left_eye"), 0, Axis.x)).isSome = true :=
  (C5_lazy_filter_creation [] [(1, 2)] ("left_eye") (1/2)
    (fun _ _ => rfl)).2.2 0 Axis.x (by decide)

/-! ### The EAR calculator -/

/-- Embeds `np.linalg.norm` of a 2-vector. -/
noncomputable def linalgNorm (v : ℝ × ℝ) : ℝ := Real.sqrt (v.1 ^ 2 + v.2 ^ 2)

/-- Embeds `calculate_ear` (`eye_stabilizer_node.py` lines 54-77 and identical
`eye_stabilizer_v2_node.py` lines 145-168): with fewer than 6 landmark
points return the fixed open-eye fallback 0.3; otherwise
`(v1 + v2) / (2 * h + 1e-6)` from the two vertical spans and the horizontal
span. -/
noncomputable def calculate_ear (eye_landmarks : List (ℝ × ℝ)) : ℝ :=
  if eye_landmarks.length < 6 then 3/10
  else
    let v1 := linalgNorm (eye_landmarks.getD 1 0 - eye_landmarks.getD 5 0)
    let v2 := linalgNorm (eye_landmarks.getD 2 0 - eye_landmarks.getD 4 0)
    let h := linalgNorm (eye_landmarks.getD 0 0 - eye_landmarks.getD 3 0)
    (v1 + v2) / (2 * h + 1/1000000)

/-- Euclidean distance in the plane (the spec's `distance`). -/
noncomputable def euclideanDist (p q : ℝ × ℝ) : ℝ :=
  Real.sqrt ((p.1 - q.1) ^ 2 + (p.2 - q.2) ^ 2)

theorem linalgNorm_sub (p q : ℝ × ℝ) : linalgNorm (p - q) = euclideanDist p q := by
  unfold linalgNorm euclideanDist
  rw [Prod.fst_sub, Prod.snd_sub]

/-- C6: on a list of at least six points ordered [left corner, top-left,
top-right, right corner, bottom-right, bottom-left], `calculate_ear`
returns `(d(p2,p6) + d(p3,p5)) / (2 * d(p1,p4) + 1e-6)` with `d` the
Euclidean distance, and its denominator is strictly positive even for a
zero horizontal span; with fewer than six points it returns exactly 0.3. -/
theorem C6_calculate_ear :
    (∀ eye_landmarks : List (ℝ × ℝ), eye_landmarks.length < 6 →
      calculate_ear eye_landmarks = 3/10)
    ∧ (∀ p1 p2 p3 p4 p5 p6 : ℝ × ℝ, ∀ rest : List (ℝ × ℝ),
        calculate_ear (p1 :: p2 :: p3 :: p4 :: p5 :: p6 :: rest)
          = (euclideanDist p2 p6 + euclideanDist p3 p5)
            / (2 * euclideanDist p1 p4 + 1/1000000)
        ∧ 0 < 2 * euclideanDist p1 p4 + 1/1000000) := by
  constructor
  · intro l hl
    unfold calculate_ear
    rw [if_pos hl]
  · intro p1 p2 p3 p4 p5 p6 rest
    have hd : 0 ≤ euclideanDist p1 p4 := by
      unfold euclideanDist
      exact Real.sqrt_nonneg _
    constructor
    · unfold calculate_ear
      rw [if_neg (by simp)]
      simp only [List.getD_cons_succ, List.getD_cons_zero]
      rw [linalgNorm_sub, linalgNorm_sub, linalgNorm_sub]
    · linarith

theorem C6_calculate_ear_witness :
    calculate_ear ([] : List (ℝ × ℝ)) = 3/10 :=
  C6_calculate_ear.1 [] (by decide)

/-! ### The frame pipeline when the landmark detector is unavailable -/

/-- A video frame: fixed height/width and an RGB pixel map. -/
structure ImageF where
  height : Nat
  width : Nat
  pix : Nat → Nat → ℚ × ℚ × ℚ

/-- A single-channel mask of the same kind. -/
structure MaskF where
  height : Nat
  width : Nat
  pix : Nat → Nat → ℚ

/-- Embeds `_process_frame` in the `mediapipe_available = False` branch
(`eye_stabilizer_node.py` lines 272-302): the stabilized output is the
enhanced frame (when enhancement is enabled) or the frame itself, the eye
mask is `Image.new('L', frame.size, 0)` — an all-zero mask of the frame's
size — and the debug output is the unannotated frame.  Modelled from the
spec: the PIL sharpness enhancement (`_enhance_image`) is external library
code, abstracted as an arbitrary size-preserving image transform passed as
`enhance`. -/
def process_frame_no_detector (enhance : ImageF → ImageF) (enable_enhancement : Bool)
    (frame : ImageF) : ImageF × MaskF × ImageF :=
  let stabilized := if enable_enhancement then enhance frame else frame
  let eye_mask : MaskF :=
    { height := frame.height, width := frame.width, pix := fun _ _ => 0 }
  (stabilized, eye_mask, frame)

/-- Embeds `stabilize_eyes` restricted to the detector-unavailable mode
(`eye_stabilizer_node.py` lines 207-270): every frame of the batch goes
through `_process_frame` and the per-frame outputs are collected in
order. -/
def stabilize_eyes_no_detector (enhance : ImageF → ImageF) (enable_enhancement : Bool)
    (images : List ImageF) : List ImageF × List MaskF × List ImageF :=
  (images.map fun f => (process_frame_no_detector enhance enable_enhancement f).1,
   images.map fun f => (process_frame_no_detector enhance enable_enhancement f).2.1,
   images.map fun f => (process_frame_no_detector enhance enable_enhancement f).2.2)

/-- C9: with the landmark detector unavailable, `stabilize_eyes` (a total
function here, so it cannot raise) returns a stabilized batch of the same
length and per-frame dimensions as the input, masks of the input frames'
dimensions that are zero everywhere, and the input frames as debug
output — for any size-preserving enhancement. -/
theorem C9_detector_unavailable (enhance : ImageF → ImageF) (enable_enhancement : Bool)
    (images : List ImageF)
    (hshape : ∀ img, (enhance img).height = img.height ∧ (enhance img).width = img.width) :
    (stabilize_eyes_no_detector enhance enable_enhancement images).1.length = images.length
    ∧ (stabilize_eyes_no_detector enhance enable_enhancement images).1.map ImageF.height
        = images.map ImageF.height
    ∧ (stabilize_eyes_no_detector enhance enable_enhancement images).1.map ImageF.width
        = images.map ImageF.width
    ∧ (stabilize_eyes_no_detector enhance enable_enhancement images).2.1.length
        = images.length
    ∧ (stabilize_eyes_no_detector enhance enable_enhancement images).2.1.map MaskF.height
        = images.map ImageF.height
    ∧ (stabilize_eyes_no_detector enhance enable_enhancement images).2.1.map MaskF.width
        = images.map ImageF.width
    ∧ (∀ m0 ∈ (stabilize_eyes_no_detector enhance enable_enhancement images).2.1,
        ∀ x y, m0.pix x y = 0)
    ∧ (stabilize_eyes_no_detector enhance enable_enhancement images).2.2 = images := by
  have hs_height : ∀ f : ImageF,
      ((process_frame_no_detector enhance enable_enhancement f).1).height = f.height := by
    intro f
    unfold process_frame_no_detector
    dsimp only
    split
    · exact (hshape f).1
    · rfl
  have hs_width : ∀ f : ImageF,
      ((process_frame_no_detector enhance enable_enhancement f).1).width = f.width := by
    intro f
    unfold process_frame_no_detector
    dsimp only
    split
    · exact (hshape f).2
    · rfl
  unfold stabilize_eyes_no_detector
  dsimp only
  refine ⟨List.length_map _ _, ?_, ?_, List.length_map _ _, ?_, ?_, ?_, ?_⟩
  · rw [List.map_map]
    exact List.map_congr_left fun f _ => hs_height f
  · rw [List.map_map]
    exact List.map_congr_left fun f _ => hs_width f
  · rw [List.map_map]
    exact List.map_congr_left fun f _ => rfl
  · rw [List.map_map]
    exact List.map_congr_left fun f _ => rfl
  · intro m0 hm
    obtain ⟨f, _, rfl⟩ := List.mem_map.mp hm
    intro x y
    rfl
  · show images.map (fun f => f) = images
    exact List.map_id' images

theorem C9_detector_unavailable_witness :
    (stabilize_eyes_no_detector (fun img => img) true
        [⟨2, 2, fun _ _ => (0, 0, 0)⟩]).1.map ImageF.height
      = [⟨2, 2, fun _ _ => (0, 0, 0)⟩].map ImageF.height
    ∧ (∀ m0 ∈ (stabilize_eyes_no_detector (fun img => img) true
        [⟨2, 2, fun _ _ => (0, 0, 0)⟩]).2.1, ∀ x y, m0.pix x y = 0) :=
  ⟨(C9_detector_unavailable (fun img => img) true [⟨2, 2, fun _ _ => (0, 0, 0)⟩]
      (fun _ => ⟨rfl, rfl⟩)).2.1,
   (C9_detector_unavailable (fun img => img) true [⟨2, 2, fun _ _ => (0, 0, 0)⟩]
      (fun _ => ⟨rfl, rfl⟩)).2.2.2.2.2.2.1⟩

end EyeStab
